import Mathlib

/-!
Shallow embedding of the core of MediaDurationRecursiveChecker
(src/MediaDurationRecursiveChecker.py) in Lean 4, together with theorems
checking the natural-language specification against the code.

Modelling conventions:
* Filesystem paths are lists of path components (`List String`).
  `Path.relative_to` succeeds exactly when the base is a component-wise
  prefix, `Path.name` is the last component, and `Path.suffix` follows
  the CPython pathlib rule.
* All filesystem and media-library effects are supplied by an explicit
  per-file environment (`MediaEnv`): the result of `stat()` (separately
  at scan time, line 891, and at processing time, line 316), the result
  of `calculate_file_hash`, the outcome of `MediaInfo.parse`, and the
  outcomes of the moviepy and ffprobe probes.  The moviepy and ffprobe
  probes are modelled at the attempt boundary (an already-truncated
  whole-second duration or an error text), since their internals go
  through floating point and an external process; the pymediainfo probe
  is modelled down to its track scan (lines 172-190).
* Python exceptions are modelled by `Except String`: a `.error` value is
  a raised exception, a `.ok` value a normal return.
* Python truthiness of optional strings (`if error:`, `if file_hash:`)
  is modelled faithfully: `none` and `some ""` are falsy.
-/

deriving instance DecidableEq for Except

namespace MediaChecker

/-- Python truthiness of an optional string: `None` and `""` are falsy. -/
def pyTruthyStr : Option String → Bool
  | some s => !(s == "")
  | none => false

/-- Backend availability flags (`PYMEDIAINFO_AVAILABLE`,
`FFMPEG_BINARY_AVAILABLE`, lines 89-105).  moviepy is always available
(it is a hard dependency, imported unconditionally at line 86). -/
structure Avail where
  pymediainfo : Bool
  ffprobe : Bool
deriving Repr, DecidableEq

/-- One track of a `MediaInfo.parse` result.  `duration` is in
milliseconds; Python treats `None` and `0` as falsy at line 176. -/
structure Track where
  track_type : String
  duration : Option Nat
deriving Repr, DecidableEq

/-- Python truthiness of `track.duration` (line 176). -/
def truthyDuration : Option Nat → Bool
  | some d => !(d == 0)
  | none => false

/-- Per-file environment: every effectful call the per-file pipeline
makes, as data.  `statScan` is the `stat()` at the total-size pass
(line 891); `statProc` the `stat()` inside `process_single_file`
(line 316) -- the file may change in between. -/
structure MediaEnv where
  statScan : Except String Nat
  statProc : Except String Nat
  hashResult : Except String String
  mediainfoParse : Except String (List Track)
  moviepyAttempt : Except String Nat
  ffprobeAttempt : Except String Nat
deriving Repr, DecidableEq

/-- The pymediainfo probe (lines 172-190): scan the parsed tracks for
the first Video/Audio track with a truthy duration; on success convert
milliseconds to whole seconds (`int(duration_ms / 1000)`); otherwise
raise "No duration information found in media tracks". -/
def pymediainfo_probe (parse : Except String (List Track)) : Except String Nat :=
  match parse with
  | .error e => .error e
  | .ok tracks =>
    match tracks.find? (fun t =>
        (t.track_type == "Video" || t.track_type == "Audio") && truthyDuration t.duration) with
    | some t =>
      match t.duration with
      | some d => .ok (d / 1000)
      | none => .error "No duration information found in media tracks"
    | none => .error "No duration information found in media tracks"

/-- A duration-extraction backend. -/
inductive Backend
  | pymediainfo
  | moviepy
  | ffprobe
deriving Repr, DecidableEq

/-- One attempted backend call and its outcome, in the order made. -/
structure Attempt where
  backend : Backend
  outcome : Except String Nat
deriving Repr, DecidableEq

/-- The parts of the aggregate all-backends-failed message
(lines 274-286): each available backend's recorded error in canonical
order, then a marker for each unavailable backend. -/
def mkErrorParts (a : Avail) (pymErr movErr ffErr : Option String) : List String :=
  (match a.pymediainfo, pymErr with
   | true, some e => ["pymediainfo failed (" ++ e ++ ")"]
   | _, _ => [])
  ++ (match movErr with
   | some e => ["moviepy failed (" ++ e ++ ")"]
   | none => [])
  ++ (match a.ffprobe, ffErr with
   | true, some e => ["ffprobe failed (" ++ e ++ ")"]
   | _, _ => [])
  ++ (if a.pymediainfo then [] else ["(pymediainfo not available)"])
  ++ (if a.ffprobe then [] else ["(ffprobe not available)"])

/-- The aggregate all-backends-failed message (line 288). -/
def mkErrorMsg (a : Avail) (name : String) (pymErr movErr ffErr : Option String) : String :=
  "Error processing " ++ name ++ ": " ++ String.intercalate ", " (mkErrorParts a pymErr movErr ffErr)

/-- The backend chain of `get_duration` (lines 164-293), instrumented
with the list of attempts actually made (the code logs each attempt;
the trace records them).  Returns `.inl d` for a successful duration,
`.inr msg` for the aggregate error message when all available backends
fail. -/
def get_duration_run (a : Avail) (env : MediaEnv) (name : String) :
    (Sum Nat String) × List Attempt :=
  -- Method 1: pymediainfo, if available (lines 165-197)
  let pymRes : Option (Except String Nat) :=
    if a.pymediainfo then some (pymediainfo_probe env.mediainfoParse) else none
  match pymRes with
  | some (.ok v) => (.inl v, [⟨.pymediainfo, .ok v⟩])
  | _ =>
    let pymErr : Option String :=
      match pymRes with
      | some (.error e) => some e
      | _ => none
    let tr0 : List Attempt :=
      match pymRes with
      | some (.error e) => [⟨.pymediainfo, .error e⟩]
      | _ => []
    -- Method 2: moviepy, always available (lines 199-224)
    match env.moviepyAttempt with
    | .ok v => (.inl v, tr0 ++ [⟨.moviepy, .ok v⟩])
    | .error movErr =>
      let tr1 := tr0 ++ [⟨.moviepy, .error movErr⟩]
      -- Method 3: ffprobe, if available (lines 226-271)
      let ffRes : Option (Except String Nat) :=
        if a.ffprobe then some env.ffprobeAttempt else none
      match ffRes with
      | some (.ok v) => (.inl v, tr1 ++ [⟨.ffprobe, .ok v⟩])
      | _ =>
        let ffErr : Option String :=
          match ffRes with
          | some (.error e) => some e
          | _ => none
        let tr2 := tr1 ++
          (match ffRes with
           | some (.error e) => [⟨.ffprobe, .error e⟩]
           | _ => [])
        (.inr (mkErrorMsg a name pymErr (some movErr) ffErr), tr2)

/-- The value `get_duration` computes once the filename is known. -/
def get_duration_core (a : Avail) (env : MediaEnv) (name : String) : Sum Nat String :=
  (get_duration_run a env name).1

/-- `Path.relative_to` (component-wise): succeeds exactly when `base`
is a prefix of `p`, raising `ValueError` otherwise. -/
def relativeTo (p base : List String) : Except String (List String) :=
  if base.isPrefixOf p then .ok (p.drop base.length) else
    .error "path is not in the subpath of the base path"

/-- `Path.name`: the last component. -/
def pathName (p : List String) : String := p.getLastD ""

/-- `get_duration` (lines 134-293).  Line 146 computes
`file_path.relative_to(base_path)` unconditionally, so the call raises
(`.error`) when the file path is not under the base path; otherwise it
returns `.inl` a duration or `.inr` the aggregate error message. -/
def get_duration (a : Avail) (env : MediaEnv) (file_path base_path : List String)
    (_verbose : Bool) : Except String (Sum Nat String) :=
  match relativeTo file_path base_path with
  | .error e => .error e
  | .ok _filename => .ok (get_duration_core a env (pathName file_path))

/-- The result record built by `process_single_file` (lines 326-380). -/
structure FileResult where
  file_path : List String
  relative_path : List String
  duration : Nat
  size : Nat
  hash : Option String
  error : Option String
  skipped : Bool
  skip_reason : Option String
deriving Repr, DecidableEq

/-- `process_single_file` (lines 296-380).  A `.error` value models an
exception escaping the function: the outer `except` block (line 371)
itself recomputes `file_path.relative_to(base_path)` (line 374), which
re-raises when the file is not under the base path.  The `verbose` and
`debug` flags only affect logging and an interactive debugger pause
(line 359) and never the returned record. -/
def process_single_file (a : Avail) (env : MediaEnv) (file_path base_path : List String)
    (verbose debug : Bool) (min_size_bytes : Nat) : Except String FileResult :=
  let attempt : Except String FileResult :=
    match env.statProc with
    | .error e => .error e
    | .ok file_size =>
      if file_size < min_size_bytes then
        -- lines 319-335: skipped record, no hashing, no extraction
        match relativeTo file_path base_path with
        | .error e => .error e
        | .ok rel =>
          .ok { file_path := file_path, relative_path := rel, duration := 0,
                size := file_size, hash := none, error := none, skipped := true,
                skip_reason := some "File too small" }
      else
        -- lines 337-344: hashing, failure tolerated
        let file_hash : Option String :=
          match env.hashResult with
          | .ok h => some h
          | .error _ => none
        -- lines 346-353: duration extraction
        match get_duration a env file_path base_path verbose with
        | .error e => .error e
        | .ok dres =>
          let duration : Nat :=
            match dres with
            | .inl d => d
            | .inr _ => 0
          let duration_error : Option String :=
            match dres with
            | .inl _ => none
            | .inr msg => some msg
          -- line 356-359: debug breakpoint is an interactive pause, a no-op here
          match relativeTo file_path base_path with
          | .error e => .error e
          | .ok rel =>
            .ok { file_path := file_path, relative_path := rel, duration := duration,
                  size := file_size, hash := file_hash, error := duration_error,
                  skipped := false, skip_reason := none }
  match attempt with
  | .ok r => .ok r
  | .error e =>
    match relativeTo file_path base_path with
    | .error e2 => .error e2
    | .ok rel =>
      .ok { file_path := file_path, relative_path := rel, duration := 0, size := 0,
            hash := none, error := some ("Failed to process file: " ++ e),
            skipped := false, skip_reason := none }

/-- One entry of the `results` output map (lines 976-980): Python dict
value `{"duration": ..., "size": ..., "hash": ...}` keyed by the
absolute file path. -/
structure ResultEntry where
  duration : Nat
  size : Nat
  hash : Option String
deriving Repr, DecidableEq

/-- Run options relevant to the aggregation loop: the total byte size
computed at line 891, the `stop_on_error` flag and the minimum file
size in bytes (line 903). -/
structure Config where
  total_size : Nat
  stop_on_error : Bool
  min_size_bytes : Nat
deriving Repr, DecidableEq

/-- The mutable state of the processing loop (lines 874-877 and
908-914), identical for the single- and the multi-threaded path. -/
structure LoopState where
  results : List (List String × ResultEntry)
  failed_files : List (List String)
  file_hashes : List (String × List (List String))
  current_duration : Nat
  processed_size : Nat
  estimated_total : ℚ
  failed_size : Nat
  completed_files : Nat
  skipped_files : Nat
deriving Repr, DecidableEq

/-- The initial loop state (all totals zero, all containers empty). -/
def initState : LoopState :=
  { results := [], failed_files := [], file_hashes := [], current_duration := 0,
    processed_size := 0, estimated_total := 0, failed_size := 0,
    completed_files := 0, skipped_files := 0 }

/-- Python dict update `file_hashes[h].append(rel)` /
`file_hashes[h] = [rel]` (lines 967-973): append to the existing
bucket, else add a new singleton bucket, preserving insertion order. -/
def hashInsert : List (String × List (List String)) → String → List String →
    List (String × List (List String))
  | [], h, rel => [(h, [rel])]
  | p :: m, h, rel =>
    if p.1 == h then (p.1, p.2 ++ [rel]) :: m else p :: hashInsert m h rel

/-- Python dict assignment `results[key] = value` (line 976),
replace-or-append preserving insertion order. -/
def dictInsert : List (List String × ResultEntry) → List String → ResultEntry →
    List (List String × ResultEntry)
  | [], k, v => [(k, v)]
  | p :: m, k, v =>
    if p.1 == k then (k, v) :: m else p :: dictInsert m k v

/-- Lookup in the `results` map. -/
def dictLookup (m : List (List String × ResultEntry)) (k : List String) : Option ResultEntry :=
  (m.find? (fun p => p.1 == k)).map Prod.snd

/-- Folding one delivered `FileResult` into the loop state
(lines 933-999, duplicated verbatim at lines 1043-1122 for the
multi-threaded path).  The second component is the continue flag:
`false` models the `break` taken when `stop_on_error` is set and the
result carries a truthy error (lines 958-964); the hash tracking,
result storage and progress-estimate update (lines 966-999) are not
executed in that case. -/
def foldResult (cfg : Config) (st : LoopState) (r : FileResult) : LoopState × Bool :=
  let st := { st with completed_files := st.completed_files + 1 }
  if r.skipped then
    ({ st with skipped_files := st.skipped_files + 1 }, true)
  else
    let st := { st with current_duration := st.current_duration + r.duration,
                        processed_size := st.processed_size + r.size }
    let hasError := pyTruthyStr r.error
    let st :=
      if hasError then
        { st with failed_files := st.failed_files ++ [r.relative_path],
                  failed_size := st.failed_size + r.size }
      else st
    if hasError && cfg.stop_on_error then (st, false)
    else
      let st :=
        if pyTruthyStr r.hash then
          match r.hash with
          | some h => { st with file_hashes := hashInsert st.file_hashes h r.relative_path }
          | none => st
        else st
      let st := { st with results := dictInsert st.results r.file_path ⟨r.duration, r.size, r.hash⟩ }
      let st :=
        if 0 < st.processed_size then
          { st with estimated_total :=
              ((cfg.total_size : ℚ) / (st.processed_size : ℚ)) * (st.current_duration : ℚ) }
        else st
      (st, true)

/-- The single-threaded processing loop (lines 924-1002) over a work
list of (absolute path, per-file environment) pairs.  `cancel idx`
models the `self.cancel_requested` flag as observed at the top of
iteration `idx` (line 925); a raised exception from
`process_single_file` is caught at line 1001 and only logged. -/
def runLoop (cfg : Config) (a : Avail) (base : List String) (cancel : Nat → Bool)
    (verbose debug : Bool) (st : LoopState) (idx : Nat) :
    List (List String × MediaEnv) → LoopState
  | [] => st
  | (p, env) :: rest =>
    if cancel idx then st
    else
      match process_single_file a env p base verbose debug cfg.min_size_bytes with
      | .error _ => runLoop cfg a base cancel verbose debug st (idx + 1) rest
      | .ok r =>
        match foldResult cfg st r with
        | (st1, true) => runLoop cfg a base cancel verbose debug st1 (idx + 1) rest
        | (st1, false) => st1

/-- Whether folding `r` makes the loop break (lines 958-964): a
non-skipped result with a truthy error while `stop_on_error` is set. -/
def stopsRun (cfg : Config) (r : FileResult) : Bool :=
  !r.skipped && pyTruthyStr r.error && cfg.stop_on_error

/-- Observer: the `FileResult` records actually folded into the loop
state, in delivery order (same control flow as `runLoop`; the record
that triggers the stop-on-error break is the last one delivered). -/
def deliveredList (cfg : Config) (a : Avail) (base : List String) (cancel : Nat → Bool)
    (verbose debug : Bool) (idx : Nat) :
    List (List String × MediaEnv) → List FileResult
  | [] => []
  | (p, env) :: rest =>
    if cancel idx then []
    else
      match process_single_file a env p base verbose debug cfg.min_size_bytes with
      | .error _ => deliveredList cfg a base cancel verbose debug (idx + 1) rest
      | .ok r =>
        if stopsRun cfg r then [r]
        else r :: deliveredList cfg a base cancel verbose debug (idx + 1) rest

/-- The duplicate groups (lines 1133-1135): every value of the
hash-to-paths map holding more than one path. -/
def duplicateGroups (st : LoopState) : List (List (List String)) :=
  (st.file_hashes.map Prod.snd).filter (fun g => 1 < g.length)

/-- `total_duplicates` (lines 1136-1138): extra copies per group. -/
def total_duplicates (st : LoopState) : Nat :=
  ((duplicateGroups st).map (fun g => g.length - 1)).sum

/-- The summary block of the JSON report (lines 1202-1213).  The
floating-point presentation fields (`total_size_gb`,
`total_duration_readable`) are omitted. -/
structure Summary where
  total_files : Nat
  processed_files : Int
  skipped_files : Nat
  min_file_size_kb : Nat
  total_duration_seconds : Nat
  failed_files_count : Nat
  duplicate_groups_count : Nat
  total_duplicate_files : Nat
deriving Repr, DecidableEq

/-- Assembling the summary from the final loop state. -/
def summaryOf (total_files : Nat) (min_file_size_kb : Nat) (st : LoopState) : Summary :=
  { total_files := total_files,
    processed_files := (total_files : Int) - (st.skipped_files : Int),
    skipped_files := st.skipped_files,
    min_file_size_kb := min_file_size_kb,
    total_duration_seconds := st.current_duration,
    failed_files_count := st.failed_files.length,
    duplicate_groups_count := (duplicateGroups st).length,
    total_duplicate_files := total_duplicates st }

/-- The extrapolated total duration computed after the run when there
were failed files (lines 1188-1191):
`(total_size / processed_size) * current_duration`. -/
def extrapolatedDuration (total_size : Nat) (st : LoopState) : ℚ :=
  ((total_size : ℚ) / (st.processed_size : ℚ)) * (st.current_duration : ℚ)

/-- Modelled from the spec (section 4.6): the estimator as the spec
words it, `estimatedTotal = currentDuration * totalSize / processedSize`,
to be compared with the expressions the code computes. -/
def estimatorSpec (currentDuration totalSize processedSize : Nat) : ℚ :=
  (currentDuration : ℚ) * (totalSize : ℚ) / (processedSize : ℚ)

/-- `sum(f.stat().st_size for f in media_files)` (line 891): the first
raising `stat()` makes the whole sum raise. -/
def sumStatSizes : List (List String × MediaEnv) → Except String Nat
  | [] => .ok 0
  | (_, env) :: rest =>
    match env.statScan with
    | .error e => .error e
    | .ok s =>
      match sumStatSizes rest with
      | .error e => .error e
      | .ok t => .ok (s + t)

/-- Outcome of `process_folder`: either the loop ran (final state and
total size), or an exception escaped to the outer handler and was
shown as a run-level error (lines 1239-1240). -/
inductive RunOutcome
  | completed (total_size : Nat) (st : LoopState)
  | errorBox (msg : String)
deriving Repr, DecidableEq

/-- The core of `process_folder` (lines 871-1240) for the
single-threaded path, over an already-scanned (and already-shuffled,
line 888) work list: compute the total size (line 891; a stat error
here escapes to the outer handler), then run the loop. -/
def process_folder (stop_on_error : Bool) (min_size_bytes : Nat) (a : Avail)
    (base : List String) (cancel : Nat → Bool) (verbose debug : Bool)
    (files : List (List String × MediaEnv)) : RunOutcome :=
  match sumStatSizes files with
  | .error e => .errorBox ("An error occurred: " ++ e)
  | .ok total_size =>
    let cfg : Config :=
      { total_size := total_size, stop_on_error := stop_on_error,
        min_size_bytes := min_size_bytes }
    .completed total_size (runLoop cfg a base cancel verbose debug initState 0 files)

/-- A directory entry yielded by `path.rglob("*")`: its path components
below the root, whether it is a regular file, and its environment.
`rglob` yields directories and other non-regular entries too. -/
structure DirEntry where
  relParts : List String
  isRegularFile : Bool
  env : MediaEnv
deriving Repr, DecidableEq

/-- The entry's final name component (`Path.name`). -/
def entryName (e : DirEntry) : String := e.relParts.getLastD ""

/-- CPython `Path.suffix`: `name[i:]` for `i` the index of the last
dot, provided `0 < i < len(name) - 1`; otherwise the empty string. -/
def pySuffix (name : String) : String :=
  let cs := name.toList
  match cs.reverse.findIdx? (fun c => c == '.') with
  | none => ""
  | some j =>
    let i := cs.length - 1 - j
    if 0 < i ∧ i < cs.length - 1 then String.mk (cs.drop i) else ""

/-- `str.lower()` (ASCII). -/
def pyLower (s : String) : String := String.mk (s.toList.map Char.toLower)

/-- The whitespace set `str.strip()` removes (ASCII). -/
def isPySpace (c : Char) : Bool :=
  c == ' ' || c == '\t' || c == '\n' || c == '\r' || c == '\x0b' || c == '\x0c'

/-- `str.strip()`: whitespace removed from both ends. -/
def pyStrip (s : String) : String :=
  String.mk (((s.toList.dropWhile isPySpace).reverse.dropWhile isPySpace).reverse)

/-- `str.split(",")` on characters: split at every comma, keeping
empty items. -/
def splitCommaAux : List Char → List Char → List String
  | [], acc => [String.mk acc.reverse]
  | c :: cs, acc =>
    if c == ',' then String.mk acc.reverse :: splitCommaAux cs []
    else splitCommaAux cs (c :: acc)

/-- `str.split(",")`. -/
def pySplitComma (s : String) : List String := splitCommaAux s.toList []

/-- `str.startswith(".")`. -/
def startsWithDot (s : String) : Bool :=
  match s.toList with
  | c :: _ => c == '.'
  | [] => false

/-- `f.suffix.lower().lstrip(".")` (line 884): lower-case the suffix
and strip all leading dots. -/
def extKey (name : String) : String :=
  String.mk ((pyLower (pySuffix name)).toList.dropWhile (fun c => c == '.'))

/-- `get_media_extensions` (lines 753-758): strip the input, return the
empty set when falsy, else the comma-separated items lower-cased
(note: the items themselves are not stripped of whitespace). -/
def get_media_extensions (input : String) : List String :=
  let extensions := pyStrip input
  if extensions == "" then []
  else (pySplitComma extensions).map pyLower

/-- The work-list filter (lines 881-886): keep every `rglob` entry
whose lower-cased, dot-stripped suffix is in the extension set and
whose name does not start with a dot.  The code performs no
regular-file check. -/
def media_files (entries : List DirEntry) (extInput : String) : List DirEntry :=
  entries.filter (fun f =>
    (get_media_extensions extInput).contains (extKey (entryName f))
      && !(startsWithDot (entryName f)))

/-- State of the multi-threaded scheduler (lines 1010-1127): futures
not yet started, futures currently executing (at most the worker
count), the aggregation state, and whether the result loop has exited
(stop-on-error break or cancellation). -/
structure PoolState where
  pending : List (List String × MediaEnv)
  running : List (List String × MediaEnv)
  st : LoopState
  stopped : Bool

/-- One scheduler transition for a pool of `n` workers.
`start`: a free worker picks a pending future (possible only while the
loop has not exited; `executor.shutdown(cancel_futures=True)` cancels
pending futures at exit).  `finish`: a running future completes and its
result is folded by the `as_completed` loop (lines 1041-1122); if the
fold breaks (stop-on-error), pending futures are cancelled and the
loop exits.  `finishRaised`: a completed future re-raises inside
`future.result()`; caught at line 1124, only logged.  `cancelBreak`:
the cancellation flag is observed at line 1028, pending futures are
cancelled and the loop exits.  `finishDiscard`: after the loop has
exited, in-flight futures still run to completion but their results
are discarded, never folded. -/
inductive PoolStep (cfg : Config) (a : Avail) (base : List String)
    (verbose debug : Bool) (n : Nat) : PoolState → PoolState → Prop
  | start (s : PoolState) (job : List String × MediaEnv) :
      s.stopped = false → s.running.length < n → job ∈ s.pending →
      PoolStep cfg a base verbose debug n s
        ⟨s.pending.erase job, s.running ++ [job], s.st, false⟩
  | finish (s : PoolState) (job : List String × MediaEnv) (r : FileResult) :
      job ∈ s.running → s.stopped = false →
      process_single_file a job.2 job.1 base verbose debug cfg.min_size_bytes = .ok r →
      PoolStep cfg a base verbose debug n s
        ⟨if (foldResult cfg s.st r).2 then s.pending else [],
         s.running.erase job, (foldResult cfg s.st r).1, !(foldResult cfg s.st r).2⟩
  | finishRaised (s : PoolState) (job : List String × MediaEnv) (e : String) :
      job ∈ s.running → s.stopped = false →
      process_single_file a job.2 job.1 base verbose debug cfg.min_size_bytes = .error e →
      PoolStep cfg a base verbose debug n s
        ⟨s.pending, s.running.erase job, s.st, false⟩
  | cancelBreak (s : PoolState) :
      s.stopped = false →
      PoolStep cfg a base verbose debug n s ⟨[], s.running, s.st, true⟩
  | finishDiscard (s : PoolState) (job : List String × MediaEnv) :
      job ∈ s.running → s.stopped = true →
      PoolStep cfg a base verbose debug n s
        ⟨s.pending, s.running.erase job, s.st, true⟩

/-- The initial scheduler state: all files submitted (lines 1014-1024),
no worker running yet. -/
def poolInit (files : List (List String × MediaEnv)) : PoolState :=
  ⟨files, [], initState, false⟩

/-- Reachability of the scheduler. -/
def PoolReachable (cfg : Config) (a : Avail) (base : List String)
    (verbose debug : Bool) (n : Nat) : PoolState → PoolState → Prop :=
  Relation.ReflTransGen (PoolStep cfg a base verbose debug n)

/-! ### Helper lemmas about the embedding -/

lemma foldResult_snd (cfg : Config) (st : LoopState) (r : FileResult) :
    (foldResult cfg st r).2 = !(stopsRun cfg r) := by
  unfold foldResult stopsRun
  cases hs : r.skipped <;>
    cases he : pyTruthyStr r.error <;>
      cases hsoe : cfg.stop_on_error <;>
        simp [hs, he, hsoe]

lemma foldResult_skipped (cfg : Config) (st : LoopState) (r : FileResult)
    (hs : r.skipped = true) :
    foldResult cfg st r =
      ({ st with completed_files := st.completed_files + 1,
                 skipped_files := st.skipped_files + 1 }, true) := by
  unfold foldResult
  simp [hs]

lemma foldResult_current_duration (cfg : Config) (st : LoopState) (r : FileResult) :
    ((foldResult cfg st r).1).current_duration =
      st.current_duration + (if r.skipped then 0 else r.duration) := by
  unfold foldResult
  cases hs : r.skipped <;>
    cases he : pyTruthyStr r.error <;>
      cases hsoe : cfg.stop_on_error <;>
        simp [hs, he, hsoe] <;>
          cases hh : pyTruthyStr r.hash <;>
            cases hro : r.hash <;>
              simp [hh, hro] <;> split <;> simp

lemma foldResult_processed_size (cfg : Config) (st : LoopState) (r : FileResult) :
    ((foldResult cfg st r).1).processed_size =
      st.processed_size + (if r.skipped then 0 else r.size) := by
  unfold foldResult
  cases hs : r.skipped <;>
    cases he : pyTruthyStr r.error <;>
      cases hsoe : cfg.stop_on_error <;>
        simp [hs, he, hsoe] <;>
          cases hh : pyTruthyStr r.hash <;>
            cases hro : r.hash <;>
              simp [hh, hro] <;> split <;> simp

lemma foldResult_failed (cfg : Config) (st : LoopState) (r : FileResult) :
    ((foldResult cfg st r).1).failed_files =
      st.failed_files ++
        (if !r.skipped && pyTruthyStr r.error then [r.relative_path] else []) := by
  unfold foldResult
  cases hs : r.skipped <;>
    cases he : pyTruthyStr r.error <;>
      cases hsoe : cfg.stop_on_error <;>
        simp [hs, he, hsoe] <;>
          cases hh : pyTruthyStr r.hash <;>
            cases hro : r.hash <;>
              simp [hh, hro] <;> split <;> simp

lemma foldResult_file_hashes (cfg : Config) (st : LoopState) (r : FileResult) :
    ((foldResult cfg st r).1).file_hashes =
      if !r.skipped && !(stopsRun cfg r) && pyTruthyStr r.hash then
        match r.hash with
        | some h => hashInsert st.file_hashes h r.relative_path
        | none => st.file_hashes
      else st.file_hashes := by
  unfold foldResult stopsRun
  cases hs : r.skipped <;>
    cases he : pyTruthyStr r.error <;>
      cases hsoe : cfg.stop_on_error <;>
        simp [hs, he, hsoe] <;>
          cases hh : pyTruthyStr r.hash <;>
            cases hro : r.hash <;>
              simp [hh, hro] <;> split <;> simp

lemma runLoop_eq_foldl (cfg : Config) (a : Avail) (base : List String)
    (cancel : Nat → Bool) (verbose debug : Bool) :
    ∀ (files : List (List String × MediaEnv)) (st : LoopState) (idx : Nat),
      runLoop cfg a base cancel verbose debug st idx files =
        (deliveredList cfg a base cancel verbose debug idx files).foldl
          (fun s r => (foldResult cfg s r).1) st := by
  intro files
  induction files with
  | nil => intro st idx; rfl
  | cons pe rest ih =>
    intro st idx
    obtain ⟨p, env⟩ := pe
    unfold runLoop deliveredList
    cases hc : cancel idx
    · simp only [Bool.false_eq_true, if_false]
      cases hp : process_single_file a env p base verbose debug cfg.min_size_bytes with
      | error e => exact ih st (idx + 1)
      | ok r =>
        have hsnd := foldResult_snd cfg st r
        cases hfr : foldResult cfg st r with
        | mk st1 b =>
          rw [hfr] at hsnd
          simp only at hsnd
          cases hstop : stopsRun cfg r
          · rw [hstop] at hsnd
            simp only [Bool.not_false] at hsnd
            subst hsnd
            simp only [hfr, hstop, Bool.false_eq_true, if_false, List.foldl_cons]
            exact ih st1 (idx + 1)
          · rw [hstop] at hsnd
            simp only [Bool.not_true] at hsnd
            subst hsnd
            simp only [hfr, hstop, if_true, List.foldl_cons, List.foldl_nil]
    · simp only [if_true]
      rfl

lemma delivered_sound (cfg : Config) (a : Avail) (base : List String)
    (cancel : Nat → Bool) (verbose debug : Bool) :
    ∀ (files : List (List String × MediaEnv)) (idx : Nat) (r : FileResult),
      r ∈ deliveredList cfg a base cancel verbose debug idx files →
        ∃ pe ∈ files,
          process_single_file a pe.2 pe.1 base verbose debug cfg.min_size_bytes = .ok r := by
  intro files
  induction files with
  | nil => intro idx r h; simp [deliveredList] at h
  | cons pe rest ih =>
    intro idx r h
    obtain ⟨p, env⟩ := pe
    unfold deliveredList at h
    cases hc : cancel idx
    · simp only [hc, Bool.false_eq_true, if_false] at h
      cases hp : process_single_file a env p base verbose debug cfg.min_size_bytes with
      | error e =>
        simp only [hp] at h
        obtain ⟨qe, hq, hq2⟩ := ih (idx + 1) r h
        exact ⟨qe, List.mem_cons_of_mem _ hq, hq2⟩
      | ok r0 =>
        simp only [hp] at h
        cases hstop : stopsRun cfg r0
        · simp only [hstop, Bool.false_eq_true, if_false, List.mem_cons] at h
          rcases h with h | h
          · exact ⟨(p, env), List.mem_cons_self _ _, by rw [hp, h]⟩
          · obtain ⟨qe, hq, hq2⟩ := ih (idx + 1) r h
            exact ⟨qe, List.mem_cons_of_mem _ hq, hq2⟩
        · simp only [hstop, if_true, List.mem_singleton] at h
          exact ⟨(p, env), List.mem_cons_self _ _, by rw [hp, h]⟩
    · simp only [hc, if_true] at h
      simp at h

lemma append_ne_empty (s t : String) (h : s ≠ "") : s ++ t ≠ "" := by
  intro heq
  apply h
  have h2 : (s ++ t).length = ("" : String).length := by rw [heq]
  rw [String.length_append] at h2
  simp at h2
  exact String.ext (List.length_eq_zero.mp h2.1)

/-- If the file path is not under the base path, `process_single_file`
raises: the exception handler recomputes the relative path and
re-raises. -/
lemma processOne_not_under (a : Avail) (env : MediaEnv) (p base : List String)
    (verbose debug : Bool) (m : Nat) (hpre : base.isPrefixOf p = false) :
    process_single_file a env p base verbose debug m =
      .error "path is not in the subpath of the base path" := by
  unfold process_single_file get_duration relativeTo
  cases hstat : env.statProc with
  | error e => simp [hpre]
  | ok size =>
    by_cases hsz : size < m <;> simp [hpre, hsz]

/-- With the file under the base path, a processing-time stat error is
downgraded by the handler to a result with `error` set and size 0
(lines 371-380). -/
lemma processOne_statfail_eq (a : Avail) (env : MediaEnv) (p base : List String)
    (verbose debug : Bool) (m : Nat) (e : String)
    (hstat : env.statProc = .error e) (hpre : base.isPrefixOf p = true) :
    process_single_file a env p base verbose debug m =
      .ok ⟨p, p.drop base.length, 0, 0, none,
           some ("Failed to process file: " ++ e), false, none⟩ := by
  unfold process_single_file get_duration relativeTo
  rw [hstat]
  simp [hpre]

/-- With the file under the base path and its size below the minimum,
the skipped record is returned (lines 319-335). -/
lemma processOne_skipped_eq (a : Avail) (env : MediaEnv) (p base : List String)
    (verbose debug : Bool) (m : Nat) (s : Nat)
    (hstat : env.statProc = .ok s) (hsz : s < m) (hpre : base.isPrefixOf p = true) :
    process_single_file a env p base verbose debug m =
      .ok ⟨p, p.drop base.length, 0, s, none, none, true, some "File too small"⟩ := by
  unfold process_single_file get_duration relativeTo
  rw [hstat]
  simp [hpre, hsz]

/-- With the file under the base path and its size at or above the
minimum, the main record is returned: hash from the hashing attempt
(failure tolerated), duration/error split from the backend chain
(lines 337-369). -/
lemma processOne_main_eq (a : Avail) (env : MediaEnv) (p base : List String)
    (verbose debug : Bool) (m : Nat) (s : Nat)
    (hstat : env.statProc = .ok s) (hsz : ¬ s < m) (hpre : base.isPrefixOf p = true) :
    process_single_file a env p base verbose debug m =
      .ok ⟨p, p.drop base.length,
           (match get_duration_core a env (pathName p) with
            | .inl d => d
            | .inr _ => 0),
           s,
           (match env.hashResult with
            | .ok h => some h
            | .error _ => none),
           (match get_duration_core a env (pathName p) with
            | .inl _ => none
            | .inr msg => some msg),
           false, none⟩ := by
  unfold process_single_file get_duration relativeTo
  rw [hstat]
  simp [hpre, hsz]

/-- If the file path is under the base path, `process_single_file`
returns a result record whose path fields are determined. -/
lemma processOne_under (a : Avail) (env : MediaEnv) (p base : List String)
    (verbose debug : Bool) (m : Nat) (hpre : base.isPrefixOf p = true) :
    ∃ r, process_single_file a env p base verbose debug m = .ok r
      ∧ r.file_path = p ∧ r.relative_path = p.drop base.length := by
  cases hstat : env.statProc with
  | error e =>
    exact ⟨_, processOne_statfail_eq a env p base verbose debug m e hstat hpre, rfl, rfl⟩
  | ok size =>
    by_cases hsz : size < m
    · exact ⟨_, processOne_skipped_eq a env p base verbose debug m size hstat hsz hpre, rfl, rfl⟩
    · exact ⟨_, processOne_main_eq a env p base verbose debug m size hstat hsz hpre, rfl, rfl⟩

lemma processOne_ok_paths (a : Avail) (env : MediaEnv) (p base : List String)
    (verbose debug : Bool) (m : Nat) (r : FileResult)
    (h : process_single_file a env p base verbose debug m = .ok r) :
    base.isPrefixOf p = true ∧ r.file_path = p
      ∧ r.relative_path = p.drop base.length := by
  cases hpre : base.isPrefixOf p
  · rw [processOne_not_under a env p base verbose debug m hpre] at h
    exact absurd h (by simp)
  · obtain ⟨r0, hr0, hfp, hrel⟩ := processOne_under a env p base verbose debug m hpre
    rw [h] at hr0
    have h2 : r = r0 := by simpa using hr0
    subst h2
    exact ⟨rfl, hfp, hrel⟩

/-- The aggregate all-backends-failed message is never empty. -/
lemma mkErrorMsg_ne_empty (a : Avail) (name : String) (e1 e2 e3 : Option String) :
    mkErrorMsg a name e1 e2 e3 ≠ "" := by
  unfold mkErrorMsg
  intro h
  have h2 := congrArg String.length h
  rw [String.length_append, String.length_append, String.length_append] at h2
  have h3 : ("Error processing " : String).length = 17 := rfl
  have h4 : ("" : String).length = 0 := rfl
  omega

/-- An error message coming out of the backend chain is nonempty. -/
lemma get_duration_core_inr_ne (a : Avail) (env : MediaEnv) (name msg : String)
    (h : get_duration_core a env name = .inr msg) : msg ≠ "" := by
  unfold get_duration_core get_duration_run at h
  cases hpm : (if a.pymediainfo = true then
      some (pymediainfo_probe env.mediainfoParse) else none) with
  | none =>
    rw [hpm] at h
    cases hmov : env.moviepyAttempt with
    | ok v => rw [hmov] at h; simp at h
    | error e2 =>
      rw [hmov] at h
      cases hff : (if a.ffprobe = true then some env.ffprobeAttempt else none) with
      | none =>
        rw [hff] at h
        simp only at h
        injection h with h2
        rw [← h2]
        exact mkErrorMsg_ne_empty a name _ _ _
      | some fr =>
        cases fr with
        | ok v => rw [hff] at h; simp at h
        | error e3 =>
          rw [hff] at h
          simp only at h
          injection h with h2
          rw [← h2]
          exact mkErrorMsg_ne_empty a name _ _ _
  | some pr =>
    cases pr with
    | ok v => rw [hpm] at h; simp at h
    | error e1 =>
      rw [hpm] at h
      cases hmov : env.moviepyAttempt with
      | ok v => rw [hmov] at h; simp at h
      | error e2 =>
        rw [hmov] at h
        cases hff : (if a.ffprobe = true then some env.ffprobeAttempt else none) with
        | none =>
          rw [hff] at h
          simp only at h
          injection h with h2
          rw [← h2]
          exact mkErrorMsg_ne_empty a name _ _ _
        | some fr =>
          cases fr with
          | ok v => rw [hff] at h; simp at h
          | error e3 =>
            rw [hff] at h
            simp only at h
            injection h with h2
            rw [← h2]
            exact mkErrorMsg_ne_empty a name _ _ _

/-- The error field of a returned result is either absent or a
nonempty message, and a result carrying an error stores duration 0. -/
lemma processOne_err_shape (a : Avail) (env : MediaEnv) (p base : List String)
    (verbose debug : Bool) (m : Nat) (r : FileResult)
    (h : process_single_file a env p base verbose debug m = .ok r) :
    r.error = none ∨ (∃ e, r.error = some e ∧ e ≠ "" ∧ r.duration = 0) := by
  have hpre := (processOne_ok_paths a env p base verbose debug m r h).1
  cases hstat : env.statProc with
  | error e =>
    rw [processOne_statfail_eq a env p base verbose debug m e hstat hpre] at h
    injection h with h2
    subst h2
    refine Or.inr ⟨_, rfl, ?_, rfl⟩
    exact append_ne_empty _ _ (by decide)
  | ok size =>
    by_cases hsz : size < m
    · rw [processOne_skipped_eq a env p base verbose debug m size hstat hsz hpre] at h
      injection h with h2
      subst h2
      exact Or.inl rfl
    · rw [processOne_main_eq a env p base verbose debug m size hstat hsz hpre] at h
      injection h with h2
      subst h2
      cases hgd : get_duration_core a env (pathName p) with
      | inl d => exact Or.inl (by simp [hgd])
      | inr msg =>
        refine Or.inr ⟨msg, by simp [hgd], ?_, by simp [hgd]⟩
        exact get_duration_core_inr_ne a env (pathName p) msg hgd

/-! ### Shared sample data for witnesses and counterexamples -/

/-- A file whose every probe succeeds (pymediainfo finds a 125000 ms
video track). -/
def envOkSample : MediaEnv :=
  ⟨.ok 10, .ok 10, .ok "aa11", .ok [⟨"Video", some 125000⟩], .ok 99, .ok 77⟩

/-- A file on which every backend fails. -/
def envAllFailSample : MediaEnv :=
  ⟨.ok 10, .ok 10, .ok "aa11", .error "e1", .error "e2", .error "e3"⟩

/-- A file where pymediainfo and moviepy fail and ffprobe returns 125. -/
def envFfOkSample : MediaEnv :=
  ⟨.ok 10, .ok 10, .ok "aa11", .error "e1", .error "e2", .ok 125⟩

/-- A file whose scan-time stat raises. -/
def envScanFailSample : MediaEnv :=
  ⟨.error "stat failed", .ok 10, .ok "aa11", .ok [], .ok 5, .ok 5⟩

/-- A file whose processing-time stat raises (vanished mid-run). -/
def envProcFailSample : MediaEnv :=
  ⟨.ok 10, .error "vanished", .ok "aa11", .ok [], .ok 5, .ok 5⟩

/-- Both optional backends available. -/
def availAll : Avail := ⟨true, true⟩

/-! ### The claims -/

/-- Claim C2: for every file, duration extraction tries the backends in
the fixed order pymediainfo, moviepy, ffprobe; returns the first
successful whole-second duration without trying later backends; records
each failing available backend's error (the attempt trace); marks
unavailable backends without counting them as failures (they are never
attempted and appear only as "not available" markers); and yields an
aggregate failure listing every available backend's error exactly when
all available backends fail. -/
theorem claim_C2 (a : Avail) (env : MediaEnv) (name : String) :
    (∀ v, a.pymediainfo = true → pymediainfo_probe env.mediainfoParse = .ok v →
      get_duration_run a env name = (.inl v, [⟨.pymediainfo, .ok v⟩]))
    ∧ (∀ e1 v, a.pymediainfo = true → pymediainfo_probe env.mediainfoParse = .error e1 →
      env.moviepyAttempt = .ok v →
      get_duration_run a env name =
        (.inl v, [⟨.pymediainfo, .error e1⟩, ⟨.moviepy, .ok v⟩]))
    ∧ (∀ v, a.pymediainfo = false → env.moviepyAttempt = .ok v →
      get_duration_run a env name = (.inl v, [⟨.moviepy, .ok v⟩]))
    ∧ (∀ e2 v, a.pymediainfo = false → env.moviepyAttempt = .error e2 →
      a.ffprobe = true → env.ffprobeAttempt = .ok v →
      get_duration_run a env name =
        (.inl v, [⟨.moviepy, .error e2⟩, ⟨.ffprobe, .ok v⟩]))
    ∧ (∀ e1 e2 v, a.pymediainfo = true → pymediainfo_probe env.mediainfoParse = .error e1 →
      env.moviepyAttempt = .error e2 → a.ffprobe = true → env.ffprobeAttempt = .ok v →
      get_duration_run a env name =
        (.inl v, [⟨.pymediainfo, .error e1⟩, ⟨.moviepy, .error e2⟩, ⟨.ffprobe, .ok v⟩]))
    ∧ (∀ e1 e2 e3, a.pymediainfo = true → pymediainfo_probe env.mediainfoParse = .error e1 →
      env.moviepyAttempt = .error e2 → a.ffprobe = true → env.ffprobeAttempt = .error e3 →
      get_duration_run a env name =
        (.inr ("Error processing " ++ name ++ ": " ++ String.intercalate ", "
            ["pymediainfo failed (" ++ e1 ++ ")", "moviepy failed (" ++ e2 ++ ")",
             "ffprobe failed (" ++ e3 ++ ")"]),
         [⟨.pymediainfo, .error e1⟩, ⟨.moviepy, .error e2⟩, ⟨.ffprobe, .error e3⟩]))
    ∧ (∀ e1 e2, a.pymediainfo = true → pymediainfo_probe env.mediainfoParse = .error e1 →
      env.moviepyAttempt = .error e2 → a.ffprobe = false →
      get_duration_run a env name =
        (.inr ("Error processing " ++ name ++ ": " ++ String.intercalate ", "
            ["pymediainfo failed (" ++ e1 ++ ")", "moviepy failed (" ++ e2 ++ ")",
             "(ffprobe not available)"]),
         [⟨.pymediainfo, .error e1⟩, ⟨.moviepy, .error e2⟩]))
    ∧ (∀ e2 e3, a.pymediainfo = false → env.moviepyAttempt = .error e2 →
      a.ffprobe = true → env.ffprobeAttempt = .error e3 →
      get_duration_run a env name =
        (.inr ("Error processing " ++ name ++ ": " ++ String.intercalate ", "
            ["moviepy failed (" ++ e2 ++ ")", "ffprobe failed (" ++ e3 ++ ")",
             "(pymediainfo not available)"]),
         [⟨.moviepy, .error e2⟩, ⟨.ffprobe, .error e3⟩]))
    ∧ (∀ e2, a.pymediainfo = false → env.moviepyAttempt = .error e2 → a.ffprobe = false →
      get_duration_run a env name =
        (.inr ("Error processing " ++ name ++ ": " ++ String.intercalate ", "
            ["moviepy failed (" ++ e2 ++ ")", "(pymediainfo not available)",
             "(ffprobe not available)"]),
         [⟨.moviepy, .error e2⟩]))
    ∧ (((get_duration_run a env name).2.map Attempt.backend).Sublist
        [.pymediainfo, .moviepy, .ffprobe])
    ∧ (a.pymediainfo = false →
      ∀ att ∈ (get_duration_run a env name).2, att.backend ≠ .pymediainfo)
    ∧ (a.ffprobe = false →
      ∀ att ∈ (get_duration_run a env name).2, att.backend ≠ .ffprobe) := by
  have hshape : ∀ h1 : Bool, h1 = a.pymediainfo →
      (((get_duration_run a env name).2.map Attempt.backend).Sublist
        [.pymediainfo, .moviepy, .ffprobe])
      ∧ (a.pymediainfo = false →
          ∀ att ∈ (get_duration_run a env name).2, att.backend ≠ .pymediainfo)
      ∧ (a.ffprobe = false →
          ∀ att ∈ (get_duration_run a env name).2, att.backend ≠ .ffprobe) := by
    intro h1 hh1
    cases ha : a.pymediainfo
    · cases hmov : env.moviepyAttempt
      · cases hff : a.ffprobe
        · refine ⟨?_, ?_, ?_⟩ <;>
            simp [get_duration_run, ha, hmov, hff]
        · cases hffr : env.ffprobeAttempt <;>
            refine ⟨?_, ?_, ?_⟩ <;>
              simp [get_duration_run, ha, hmov, hff, hffr]
      · refine ⟨?_, ?_, ?_⟩ <;>
          simp [get_duration_run, ha, hmov]
    · cases hpm : pymediainfo_probe env.mediainfoParse
      · cases hmov : env.moviepyAttempt
        · cases hff : a.ffprobe
          · refine ⟨?_, ?_, ?_⟩ <;>
              simp [get_duration_run, ha, hpm, hmov, hff]
          · cases hffr : env.ffprobeAttempt <;>
              refine ⟨?_, ?_, ?_⟩ <;>
                simp [get_duration_run, ha, hpm, hmov, hff, hffr]
        · refine ⟨?_, ?_, ?_⟩ <;>
            simp [get_duration_run, ha, hpm, hmov]
      · refine ⟨?_, ?_, ?_⟩ <;>
          simp [get_duration_run, ha, hpm]
  obtain ⟨hs1, hs2, hs3⟩ := hshape a.pymediainfo rfl
  refine ⟨?_, ?_, ?_, ?_, ?_, ?_, ?_, ?_, ?_, hs1, hs2, hs3⟩
  · intro v h1 h2
    simp [get_duration_run, h1, h2]
  · intro e1 v h1 h2 h3
    simp [get_duration_run, h1, h2, h3]
  · intro v h1 h2
    simp [get_duration_run, h1, h2]
  · intro e2 v h1 h2 h3 h4
    simp [get_duration_run, h1, h2, h3, h4]
  · intro e1 e2 v h1 h2 h3 h4 h5
    simp [get_duration_run, h1, h2, h3, h4, h5]
  · intro e1 e2 e3 h1 h2 h3 h4 h5
    simp [get_duration_run, mkErrorMsg, mkErrorParts, h1, h2, h3, h4, h5]
  · intro e1 e2 h1 h2 h3 h4
    simp [get_duration_run, mkErrorMsg, mkErrorParts, h1, h2, h3, h4]
  · intro e2 e3 h1 h2 h3 h4
    simp [get_duration_run, mkErrorMsg, mkErrorParts, h1, h2, h3, h4]
  · intro e2 h1 h2 h3
    simp [get_duration_run, mkErrorMsg, mkErrorParts, h1, h2, h3]

/-- Witness for C2: the spec's mocked scenario — pymediainfo and
moviepy fail, ffprobe returns 125; the result is duration 125 with the
two failures recorded before the success. -/
theorem claim_C2_witness :
    get_duration_run availAll envFfOkSample "b.mp4" =
      (.inl 125, [⟨.pymediainfo, .error "e1"⟩, ⟨.moviepy, .error "e2"⟩,
                  ⟨.ffprobe, .ok 125⟩]) :=
  (claim_C2 availAll envFfOkSample "b.mp4").2.2.2.2.1 "e1" "e2" 125
    rfl rfl rfl rfl rfl

/-- Claim C3 (amended): `process_single_file` never raises provided the
file path lies under the base path — which holds for every path the
scanner hands it.  (As stated, the claim fails for a file path outside
the base path: the exception handler itself recomputes the relative
path and re-raises; see the counterexample.) -/
theorem claim_C3 (a : Avail) (env : MediaEnv) (p base : List String)
    (verbose debug : Bool) (m : Nat) (hpre : base.isPrefixOf p = true) :
    ∃ r, process_single_file a env p base verbose debug m = .ok r := by
  obtain ⟨r, hr, -, -⟩ := processOne_under a env p base verbose debug m hpre
  exact ⟨r, hr⟩

/-- Witness for C3: a concrete file under the base path processes to a
result record. -/
theorem claim_C3_witness :
    (["r"] : List String).isPrefixOf ["r", "a.mp4"] = true ∧
      ∃ r, process_single_file availAll envOkSample ["r", "a.mp4"] ["r"]
        false false 0 = .ok r :=
  ⟨by decide, claim_C3 availAll envOkSample ["r", "a.mp4"] ["r"] false false 0 (by decide)⟩

/-- Counterexample to C3 as stated: with a file path not under the base
path, `process_single_file` raises (the handler's own
`relative_to` call re-raises), so it does not return a FileResult for
every input file and base path. -/
theorem claim_C3_cex :
    process_single_file availAll envOkSample ["x", "a.mp4"] ["r"] false false 0 =
      .error "path is not in the subpath of the base path" := by
  rfl

lemma foldResult_estimated (cfg : Config) (st : LoopState) (r : FileResult)
    (hs : r.skipped = false) (hstop2 : stopsRun cfg r = false) :
    ((foldResult cfg st r).1).estimated_total =
      if 0 < st.processed_size + r.size then
        ((cfg.total_size : ℚ) / ((st.processed_size + r.size : Nat) : ℚ))
          * ((st.current_duration + r.duration : Nat) : ℚ)
      else st.estimated_total := by
  unfold foldResult
  cases he : pyTruthyStr r.error
  · cases hsoe : cfg.stop_on_error <;>
      simp [hs, he, hsoe] <;>
        cases hh : pyTruthyStr r.hash <;>
          cases hro : r.hash <;>
            simp [hh, hro] <;> split <;> simp_all
  · cases hsoe : cfg.stop_on_error
    · simp [hs, he, hsoe] <;>
        cases hh : pyTruthyStr r.hash <;>
          cases hro : r.hash <;>
            simp [hh, hro] <;> split <;> simp_all
    · exfalso
      unfold stopsRun at hstop2
      rw [hs, he, hsoe] at hstop2
      simp at hstop2

lemma foldResult_estimated_stop (cfg : Config) (st : LoopState) (r : FileResult)
    (hs : r.skipped = false) (he : pyTruthyStr r.error = true)
    (hsoe : cfg.stop_on_error = true) :
    ((foldResult cfg st r).1).estimated_total = st.estimated_total := by
  unfold foldResult
  simp [hs, he, hsoe]

lemma foldl_zero_est (cfg : Config) :
    ∀ (rs : List FileResult) (st : LoopState),
      (st.processed_size = 0 → st.estimated_total = 0) →
      ((rs.foldl (fun s r => (foldResult cfg s r).1) st).processed_size = 0 →
        (rs.foldl (fun s r => (foldResult cfg s r).1) st).estimated_total = 0) := by
  intro rs
  induction rs with
  | nil => intro st hP; exact hP
  | cons r rest ih =>
    intro st hP
    simp only [List.foldl_cons]
    apply ih
    intro h0
    have hps := foldResult_processed_size cfg st r
    rw [h0] at hps
    cases hs : r.skipped
    · rw [hs] at hps
      simp only [Bool.false_eq_true, if_false] at hps
      have hst0 : st.processed_size = 0 := by omega
      have hr0 : r.size = 0 := by omega
      cases hstop2 : stopsRun cfg r
      · rw [foldResult_estimated cfg st r hs hstop2]
        rw [hst0, hr0]
        simp
        exact hP hst0
      · unfold stopsRun at hstop2
        rw [hs] at hstop2
        simp only [Bool.not_false, Bool.true_and, Bool.and_eq_true] at hstop2
        rw [foldResult_estimated_stop cfg st r hs hstop2.1 hstop2.2]
        exact hP hst0
    · rw [foldResult_skipped cfg st r hs]
      simp only
      rw [hs] at hps
      simp only [if_true] at hps
      have hst0 : st.processed_size = 0 := by omega
      exact hP hst0

/-- Claim C5: the progress estimator.  (1) The post-run extrapolation
expression equals `currentDuration * totalSize / processedSize`
whenever `processedSize > 0` (the spec's wording of the estimator).
(2) The live per-file update stores exactly the same function of the
same three inputs into `estimated_total` (and leaves it untouched when
`processedSize = 0`).  (3) A run in which no byte was processed reports
an estimate of 0. -/
theorem claim_C5 :
    (∀ (t : Nat) (st : LoopState), 0 < st.processed_size →
      extrapolatedDuration t st = estimatorSpec st.current_duration t st.processed_size)
    ∧ (∀ (cfg : Config) (st : LoopState) (r : FileResult),
        r.skipped = false → stopsRun cfg r = false →
        (0 < ((foldResult cfg st r).1).processed_size →
          ((foldResult cfg st r).1).estimated_total =
            extrapolatedDuration cfg.total_size ((foldResult cfg st r).1))
        ∧ (((foldResult cfg st r).1).processed_size = 0 →
          ((foldResult cfg st r).1).estimated_total = st.estimated_total))
    ∧ (∀ (cfg : Config) (a : Avail) (base : List String) (cancel : Nat → Bool)
        (verbose debug : Bool) (files : List (List String × MediaEnv)),
        (runLoop cfg a base cancel verbose debug initState 0 files).processed_size = 0 →
        (runLoop cfg a base cancel verbose debug initState 0 files).estimated_total = 0) := by
  refine ⟨?_, ?_, ?_⟩
  · intro t st h0
    unfold extrapolatedDuration estimatorSpec
    ring
  · intro cfg st r hs hstop2
    have hps := foldResult_processed_size cfg st r
    rw [hs] at hps
    simp only [Bool.false_eq_true, if_false] at hps
    have hcd := foldResult_current_duration cfg st r
    rw [hs] at hcd
    simp only [Bool.false_eq_true, if_false] at hcd
    have hest := foldResult_estimated cfg st r hs hstop2
    constructor
    · intro h0
      rw [hps] at h0
      rw [hest, if_pos h0]
      unfold extrapolatedDuration
      rw [hps, hcd]
    · intro h0
      rw [hps] at h0
      rw [hest, if_neg (by omega)]
  · intro cfg a base cancel verbose debug files
    rw [runLoop_eq_foldl]
    exact foldl_zero_est cfg _ initState (fun _ => rfl)

/-- A run configuration used by witnesses: total size 100 bytes,
stop-on-error off, no minimum size. -/
def cfgSample : Config := ⟨100, false, 0⟩

/-- A concrete successfully-processed result record. -/
def resSample : FileResult :=
  ⟨["r", "a.mp4"], ["a.mp4"], 125, 10, some "aa11", none, false, none⟩

/-- The result record `process_single_file` produces for
`envAllFailSample` at `r/b.mp4` (all backends fail, hash present). -/
def resFailSample : FileResult :=
  ⟨["r", "b.mp4"], ["b.mp4"], 0, 10, some "aa11",
   some "Error processing b.mp4: pymediainfo failed (e1), moviepy failed (e2), ffprobe failed (e3)",
   false, none⟩

/-- Witness for C5: folding a concrete 10-byte, 125-second result into
the empty state stores the estimator value, which equals the spec's
`currentDuration * totalSize / processedSize`. -/
theorem claim_C5_witness :
    ((foldResult cfgSample initState resSample).1).estimated_total =
      extrapolatedDuration 100 ((foldResult cfgSample initState resSample).1)
    ∧ extrapolatedDuration 100 ((foldResult cfgSample initState resSample).1) =
      estimatorSpec ((foldResult cfgSample initState resSample).1).current_duration 100
        ((foldResult cfgSample initState resSample).1).processed_size := by
  have h2 := (claim_C5.2.1 cfgSample initState resSample rfl rfl).1 (by decide)
  have h1 := claim_C5.1 100 ((foldResult cfgSample initState resSample).1) (by decide)
  exact ⟨h2, h1⟩

/-- Claim C9 (amended): the work list contains exactly the `rglob`
entries — of any file type, since the code performs no regular-file
check — whose name does not start with a dot and whose lower-cased,
dot-stripped extension is in the configured extension set. -/
theorem claim_C9 (entries : List DirEntry) (extInput : String) (e : DirEntry) :
    e ∈ media_files entries extInput ↔
      e ∈ entries
      ∧ (get_media_extensions extInput).contains (extKey (entryName e)) = true
      ∧ startsWithDot (entryName e) = false := by
  unfold media_files
  rw [List.mem_filter]
  simp [Bool.and_eq_true, Bool.not_eq_true']

/-- A directory (non-regular entry) named like a media file. -/
def dirEntrySample : DirEntry := ⟨["movies.mp4"], false, envOkSample⟩

/-- Counterexample to C9 as stated: the scan filter keeps a directory
whose name carries a matching extension, so the work list is not
restricted to regular files. -/
theorem claim_C9_cex :
    media_files [dirEntrySample] "mp3,mp4,avi,mkv,mov,wav,flac,mxf,raw" = [dirEntrySample]
    ∧ dirEntrySample.isRegularFile = false := by
  constructor
  · decide
  · rfl

/-- Claim C8 (amended): a stat error on a discovered file at scan time
(the total-size computation, line 891) escapes to the outer handler and
aborts the whole run — the file is not silently excluded and no files
are processed.  Only a stat error occurring later, at per-file
processing time, is tolerated: it is captured in that file's result
(error set, size 0) and, with stop-on-error off, the loop continues
past it. -/
theorem claim_C8 :
    (∀ (stop : Bool) (m : Nat) (a : Avail) (base : List String) (cancel : Nat → Bool)
        (verbose debug : Bool) (files : List (List String × MediaEnv)) (e : String),
      sumStatSizes files = .error e →
      process_folder stop m a base cancel verbose debug files =
        .errorBox ("An error occurred: " ++ e))
    ∧ (∀ (files : List (List String × MediaEnv)) (pe : List String × MediaEnv) (e : String),
      pe ∈ files → pe.2.statScan = .error e →
      ∃ e2, sumStatSizes files = .error e2)
    ∧ (∀ (stop : Bool) (m : Nat) (a : Avail) (base : List String) (cancel : Nat → Bool)
        (verbose debug : Bool) (files : List (List String × MediaEnv)) (total : Nat),
      sumStatSizes files = .ok total →
      process_folder stop m a base cancel verbose debug files =
        .completed total (runLoop ⟨total, stop, m⟩ a base cancel verbose debug initState 0 files))
    ∧ (∀ (a : Avail) (env : MediaEnv) (p base : List String) (verbose debug : Bool)
        (m : Nat) (e : String),
      env.statProc = .error e → base.isPrefixOf p = true →
      process_single_file a env p base verbose debug m =
        .ok ⟨p, p.drop base.length, 0, 0, none,
             some ("Failed to process file: " ++ e), false, none⟩)
    ∧ (∀ (cfg : Config) (st : LoopState) (r : FileResult),
      cfg.stop_on_error = false → (foldResult cfg st r).2 = true) := by
  refine ⟨?_, ?_, ?_, ?_, ?_⟩
  · intro stop m a base cancel verbose debug files e h
    unfold process_folder
    rw [h]
  · intro files
    induction files with
    | nil => intro pe e h; simp at h
    | cons qe rest ih =>
      intro pe e hmem hscan
      rcases List.mem_cons.mp hmem with h | h
      · subst h
        exact ⟨e, by unfold sumStatSizes; rw [hscan]⟩
      · cases hq : qe.2.statScan with
        | error e2 => exact ⟨e2, by unfold sumStatSizes; rw [hq]⟩
        | ok s =>
          obtain ⟨e2, he2⟩ := ih pe e h hscan
          exact ⟨e2, by unfold sumStatSizes; rw [hq, he2]⟩
  · intro stop m a base cancel verbose debug files total h
    unfold process_folder
    rw [h]
  · intro a env p base verbose debug m e h1 h2
    exact processOne_statfail_eq a env p base verbose debug m e h1 h2
  · intro cfg st r h
    rw [foldResult_snd]
    unfold stopsRun
    rw [h]
    simp

/-- Witness for C8 (amended): a concrete work list whose first file's
scan-time stat raises makes the whole run abort with a run-level
error, and a concrete processing-time stat error is downgraded into
the file's own result. -/
theorem claim_C8_witness :
    process_folder false 0 availAll ["r"] (fun _ => false) false false
      [(["r", "bad.mp4"], envScanFailSample), (["r", "a.mp4"], envOkSample)] =
      .errorBox ("An error occurred: " ++ "stat failed")
    ∧ process_single_file availAll envProcFailSample ["r", "c.mp4"] ["r"] false false 0 =
      .ok ⟨["r", "c.mp4"], ["c.mp4"], 0, 0, none,
           some ("Failed to process file: " ++ "vanished"), false, none⟩ :=
  ⟨claim_C8.1 false 0 availAll ["r"] (fun _ => false) false false
      [(["r", "bad.mp4"], envScanFailSample), (["r", "a.mp4"], envOkSample)] "stat failed" rfl,
   claim_C8.2.2.2.1 availAll envProcFailSample ["r", "c.mp4"] ["r"] false false 0 "vanished"
      rfl (by decide)⟩

/-- Counterexample to C8 as stated: a work list in which one file's
size cannot be read is not processed minus that file — the run fails
outright and never completes. -/
theorem claim_C8_cex :
    process_folder false 0 availAll ["r"] (fun _ => false) false false
      [(["r", "a.mp4"], envOkSample), (["r", "bad.mp4"], envScanFailSample)] =
      .errorBox "An error occurred: stat failed"
    ∧ ∀ (total : Nat) (st : LoopState),
      process_folder false 0 availAll ["r"] (fun _ => false) false false
        [(["r", "a.mp4"], envOkSample), (["r", "bad.mp4"], envScanFailSample)] ≠
        .completed total st := by
  have h1 : process_folder false 0 availAll ["r"] (fun _ => false) false false
      [(["r", "a.mp4"], envOkSample), (["r", "bad.mp4"], envScanFailSample)] =
      .errorBox "An error occurred: stat failed" := rfl
  refine ⟨h1, ?_⟩
  intro total st h
  rw [h1] at h
  exact RunOutcome.noConfusion h

lemma foldl_duration (cfg : Config) :
    ∀ (rs : List FileResult) (st : LoopState),
      (∀ r ∈ rs, r.error = none ∨ (∃ e, r.error = some e ∧ e ≠ "" ∧ r.duration = 0)) →
      (rs.foldl (fun s r => (foldResult cfg s r).1) st).current_duration =
        st.current_duration +
          ((rs.filter (fun r => !r.skipped && r.error == none)).map FileResult.duration).sum := by
  intro rs
  induction rs with
  | nil => intro st hsh; simp
  | cons r rest ih =>
    intro st hsh
    have hr := hsh r (List.mem_cons_self _ _)
    have hrest : ∀ r2 ∈ rest, r2.error = none ∨ (∃ e, r2.error = some e ∧ e ≠ "" ∧ r2.duration = 0) :=
      fun r2 h2 => hsh r2 (List.mem_cons_of_mem _ h2)
    simp only [List.foldl_cons]
    rw [ih _ hrest]
    have hcd := foldResult_current_duration cfg st r
    cases hs : r.skipped
    · rw [hs] at hcd
      simp only [Bool.false_eq_true, if_false] at hcd
      rcases hr with hnone | ⟨e, hsome, -, hd0⟩
      · rw [hcd]
        simp [List.filter_cons, hs, hnone]
        omega
      · rw [hcd, hd0]
        simp [List.filter_cons, hs, hsome]
    · rw [hs] at hcd
      simp only [if_true] at hcd
      rw [hcd]
      simp [List.filter_cons, hs]

/-- Claim C1: the run summary's `total_duration_seconds` equals the sum
of the durations of the delivered results that are neither skipped nor
carrying an extraction error.  (Failed non-skipped results store
duration 0, so folding them adds nothing; skipped results are not
folded into the totals at all.) -/
theorem claim_C1 (cfg : Config) (a : Avail) (base : List String) (cancel : Nat → Bool)
    (verbose debug : Bool) (files : List (List String × MediaEnv)) (minKB : Nat) :
    (summaryOf files.length minKB
        (runLoop cfg a base cancel verbose debug initState 0 files)).total_duration_seconds =
      (((deliveredList cfg a base cancel verbose debug 0 files).filter
          (fun r => !r.skipped && r.error == none)).map FileResult.duration).sum := by
  have hsh : ∀ r ∈ deliveredList cfg a base cancel verbose debug 0 files,
      r.error = none ∨ (∃ e, r.error = some e ∧ e ≠ "" ∧ r.duration = 0) := by
    intro r hmem
    obtain ⟨pe, -, hok⟩ := delivered_sound cfg a base cancel verbose debug files 0 r hmem
    exact processOne_err_shape a pe.2 pe.1 base verbose debug cfg.min_size_bytes r hok
  unfold summaryOf
  simp only
  rw [runLoop_eq_foldl, foldl_duration cfg _ initState hsh]
  simp [initState]

lemma dictLookup_insert (m : List (List String × ResultEntry)) (k : List String)
    (v : ResultEntry) : dictLookup (dictInsert m k v) k = some v := by
  induction m with
  | nil => simp [dictInsert, dictLookup, List.find?]
  | cons p m2 ih =>
    cases hph : p.1 == k
    · simp only [dictInsert, hph, Bool.false_eq_true, if_false]
      simp only [dictLookup, List.find?, hph]
      exact ih
    · simp only [dictInsert, hph, if_true]
      simp [dictLookup, List.find?]

lemma hashInsert_mem (m : List (String × List (List String))) (h : String)
    (rel : List String) :
    ∃ l : List (List String), (h, l) ∈ hashInsert m h rel ∧ rel ∈ l := by
  induction m with
  | nil => exact ⟨[rel], by simp [hashInsert], by simp⟩
  | cons p m2 ih =>
    cases hph : p.1 == h
    · simp only [hashInsert, hph, Bool.false_eq_true, if_false]
      obtain ⟨l, hl, hrel⟩ := ih
      exact ⟨l, List.mem_cons_of_mem _ hl, hrel⟩
    · have hpe : p.1 = h := by simpa using hph
      simp only [hashInsert, hph, if_true]
      exact ⟨p.2 ++ [rel], by rw [hpe]; exact List.mem_cons_self _ _, by simp⟩

lemma hashInsert_dup (h : String) (rel : List String) :
    ∀ (m : List (String × List (List String))) (l : List (List String)),
      (∀ pr ∈ m, pr.2 ≠ ([] : List (List String))) → (h, l) ∈ m →
      ∃ g, g ∈ ((hashInsert m h rel).map Prod.snd) ∧ 1 < g.length ∧ rel ∈ g := by
  intro m
  induction m with
  | nil => intro l hne hmem; simp at hmem
  | cons p m2 ih =>
    intro l hne hmem
    cases hph : p.1 == h
    · have hpne : p.1 ≠ h := by simpa using hph
      have hm2 : (h, l) ∈ m2 := by
        rcases List.mem_cons.mp hmem with heq | htail
        · exact absurd (by rw [← heq] : p.1 = h) hpne
        · exact htail
      have hne2 : ∀ pr ∈ m2, pr.2 ≠ ([] : List (List String)) :=
        fun pr h2 => hne pr (List.mem_cons_of_mem _ h2)
      obtain ⟨g, hg, hlen, hrel⟩ := ih l hne2 hm2
      simp only [hashInsert, hph, Bool.false_eq_true, if_false, List.map_cons]
      exact ⟨g, List.mem_cons_of_mem _ hg, hlen, hrel⟩
    · simp only [hashInsert, hph, if_true, List.map_cons]
      refine ⟨p.2 ++ [rel], List.mem_cons_self _ _, ?_, by simp⟩
      have hpne : p.2 ≠ ([] : List (List String)) := hne p (List.mem_cons_self _ _)
      have hpos : 0 < p.2.length := List.length_pos.mpr hpne
      simp only [List.length_append, List.length_singleton]
      omega

lemma foldResult_results (cfg : Config) (st : LoopState) (r : FileResult)
    (hs : r.skipped = false) (hstop2 : stopsRun cfg r = false) :
    ((foldResult cfg st r).1).results =
      dictInsert st.results r.file_path ⟨r.duration, r.size, r.hash⟩ := by
  unfold foldResult
  cases he : pyTruthyStr r.error
  · cases hsoe : cfg.stop_on_error <;>
      simp [hs, he, hsoe] <;>
        cases hh : pyTruthyStr r.hash <;>
          cases hro : r.hash <;>
            simp [hh, hro] <;> split <;> simp_all
  · cases hsoe : cfg.stop_on_error
    · simp [hs, he, hsoe] <;>
        cases hh : pyTruthyStr r.hash <;>
          cases hro : r.hash <;>
            simp [hh, hro] <;> split <;> simp_all
    · exfalso
      unfold stopsRun at hstop2
      rw [hs, he, hsoe] at hstop2
      simp at hstop2

/-- Claim C10: with stop-on-error off, a non-skipped result carrying an
extraction error is still folded in fully: the loop continues, the
file's bytes enter `processed_size` (the estimator's denominator), it
is stored in the `results` map with duration 0, and a present
(nonempty) hash is entered under its bucket — joining an existing
bucket makes its relative path appear in a duplicate group. -/
theorem claim_C10 (cfg : Config) (a : Avail) (env : MediaEnv) (p base : List String)
    (verbose debug : Bool) (st : LoopState) (r : FileResult) (e : String)
    (hsoe : cfg.stop_on_error = false)
    (hr : process_single_file a env p base verbose debug cfg.min_size_bytes = .ok r)
    (hs : r.skipped = false) (herr : r.error = some e) :
    (foldResult cfg st r).2 = true
    ∧ ((foldResult cfg st r).1).processed_size = st.processed_size + r.size
    ∧ dictLookup ((foldResult cfg st r).1).results r.file_path = some ⟨0, r.size, r.hash⟩
    ∧ (∀ h, r.hash = some h → h ≠ "" →
        ∃ l : List (List String),
          (h, l) ∈ ((foldResult cfg st r).1).file_hashes ∧ r.relative_path ∈ l)
    ∧ (∀ h, r.hash = some h → h ≠ "" →
        (∀ pr ∈ st.file_hashes, pr.2 ≠ ([] : List (List String))) →
        (∃ l0, (h, l0) ∈ st.file_hashes) →
        ∃ g ∈ duplicateGroups ((foldResult cfg st r).1), r.relative_path ∈ g) := by
  have hstop2 : stopsRun cfg r = false := by
    unfold stopsRun
    rw [hsoe]
    simp
  have hd0 : r.duration = 0 := by
    rcases processOne_err_shape a env p base verbose debug cfg.min_size_bytes r hr with
      hnone | ⟨e2, hsome, -, hd⟩
    · rw [herr] at hnone; exact absurd hnone (by simp)
    · exact hd
  have hfh := foldResult_file_hashes cfg st r
  refine ⟨?_, ?_, ?_, ?_, ?_⟩
  · rw [foldResult_snd, hstop2]
    rfl
  · have := foldResult_processed_size cfg st r
    rw [hs] at this
    simpa using this
  · rw [foldResult_results cfg st r hs hstop2, ← hd0]
    exact dictLookup_insert _ _ _
  · intro h hh hne
    have htruthy : pyTruthyStr r.hash = true := by
      rw [hh]
      simpa [pyTruthyStr] using hne
    rw [hs, hstop2, htruthy] at hfh
    simp only [Bool.not_false, Bool.and_self] at hfh
    rw [hh] at hfh
    simp only [if_true] at hfh
    rw [hfh]
    exact hashInsert_mem st.file_hashes h r.relative_path
  · intro h hh hne hbuckets hex
    have htruthy : pyTruthyStr r.hash = true := by
      rw [hh]
      simpa [pyTruthyStr] using hne
    rw [hs, hstop2, htruthy] at hfh
    simp only [Bool.not_false, Bool.and_self] at hfh
    rw [hh] at hfh
    simp only [if_true] at hfh
    obtain ⟨l0, hl0⟩ := hex
    obtain ⟨g, hg, hlen, hrel⟩ := hashInsert_dup h r.relative_path st.file_hashes l0 hbuckets hl0
    refine ⟨g, ?_, hrel⟩
    unfold duplicateGroups
    rw [hfh]
    exact List.mem_filter.mpr ⟨hg, by simpa using hlen⟩

/-- Witness for C10: folding a concrete failed (error-carrying) result
whose hash matches an existing bucket keeps the run going, adds its 10
bytes to `processed_size`, stores it with duration 0, and surfaces it
inside a duplicate group. -/
theorem claim_C10_witness :
    (foldResult ⟨100, false, 0⟩
        { initState with file_hashes := [("aa11", [["a.mp4"]])] } resFailSample).2 = true
    ∧ ((foldResult ⟨100, false, 0⟩
        { initState with file_hashes := [("aa11", [["a.mp4"]])] } resFailSample).1).processed_size =
        ({ initState with file_hashes := [("aa11", [["a.mp4"]])] } : LoopState).processed_size
          + resFailSample.size
    ∧ dictLookup ((foldResult ⟨100, false, 0⟩
        { initState with file_hashes := [("aa11", [["a.mp4"]])] } resFailSample).1).results
        resFailSample.file_path = some ⟨0, resFailSample.size, resFailSample.hash⟩
    ∧ ∃ g ∈ duplicateGroups ((foldResult ⟨100, false, 0⟩
        { initState with file_hashes := [("aa11", [["a.mp4"]])] } resFailSample).1),
        resFailSample.relative_path ∈ g := by
  have h := claim_C10 ⟨100, false, 0⟩ availAll envAllFailSample ["r", "b.mp4"] ["r"]
    false false { initState with file_hashes := [("aa11", [["a.mp4"]])] } resFailSample
    "Error processing b.mp4: pymediainfo failed (e1), moviepy failed (e2), ffprobe failed (e3)"
    rfl (by decide) rfl rfl
  refine ⟨h.1, h.2.1, h.2.2.1, ?_⟩
  exact h.2.2.2.2 "aa11" rfl (by decide) (by decide) ⟨[["a.mp4"]], by decide⟩

lemma eq_append_of_isPrefixOf (base p : List String) (h : base.isPrefixOf p = true) :
    p = base ++ p.drop base.length := by
  have h2 : base <+: p := by
    rw [← List.isPrefixOf_iff_prefix]
    exact h
  obtain ⟨t, ht⟩ := h2
  subst ht
  rw [List.drop_left]

lemma assoc_nodup (files : List (List String × MediaEnv)) (p : List String)
    (a b : MediaEnv) (hnd : (files.map Prod.fst).Nodup)
    (ha : (p, a) ∈ files) (hb : (p, b) ∈ files) : a = b := by
  induction files with
  | nil => simp at ha
  | cons qe rest ih =>
    simp only [List.map_cons, List.nodup_cons] at hnd
    rcases List.mem_cons.mp ha with ha1 | ha2 <;> rcases List.mem_cons.mp hb with hb1 | hb2
    · rw [← ha1] at hb1
      injection hb1 with h1 h2
      exact h2.symm
    · exfalso
      apply hnd.1
      have hq : qe.1 = p := by rw [← ha1]
      rw [hq]
      exact List.mem_map.mpr ⟨(p, b), hb2, rfl⟩
    · exfalso
      apply hnd.1
      have hq : qe.1 = p := by rw [← hb1]
      rw [hq]
      exact List.mem_map.mpr ⟨(p, a), ha2, rfl⟩
    · exact ih hnd.2 ha2 hb2

lemma foldl_failed_mem (cfg : Config) :
    ∀ (rs : List FileResult) (st : LoopState) (x : List String),
      x ∈ (rs.foldl (fun s r => (foldResult cfg s r).1) st).failed_files →
      x ∈ st.failed_files ∨
        ∃ r ∈ rs, r.skipped = false ∧ pyTruthyStr r.error = true ∧ r.relative_path = x := by
  intro rs
  induction rs with
  | nil => intro st x h; exact Or.inl h
  | cons r rest ih =>
    intro st x h
    simp only [List.foldl_cons] at h
    rcases ih _ x h with h2 | ⟨r2, hr2, hsk, herr, hrel⟩
    · rw [foldResult_failed] at h2
      rcases List.mem_append.mp h2 with h3 | h3
      · exact Or.inl h3
      · cases hc : !r.skipped && pyTruthyStr r.error
        · rw [hc] at h3; simp at h3
        · rw [hc] at h3
          simp only [if_true, List.mem_singleton] at h3
          have hc2 := hc
          simp only [Bool.and_eq_true, Bool.not_eq_true'] at hc2
          exact Or.inr ⟨r, List.mem_cons_self _ _, hc2.1, hc2.2, h3.symm⟩
    · exact Or.inr ⟨r2, List.mem_cons_of_mem _ hr2, hsk, herr, hrel⟩

lemma hashInsert_mem_sound (h : String) (rel : List String) :
    ∀ (m : List (String × List (List String))) (h2 : String) (l : List (List String)),
      (h2, l) ∈ hashInsert m h rel → ∀ x ∈ l,
        (∃ l0, (h2, l0) ∈ m ∧ x ∈ l0) ∨ (h2 = h ∧ x = rel) := by
  intro m
  induction m with
  | nil =>
    intro h2 l hmem x hx
    simp only [hashInsert, List.mem_singleton] at hmem
    injection hmem with ha hb
    subst ha
    subst hb
    simp only [List.mem_singleton] at hx
    exact Or.inr ⟨rfl, hx⟩
  | cons p m2 ih =>
    intro h2 l hmem x hx
    cases hph : p.1 == h
    · simp only [hashInsert, hph, Bool.false_eq_true, if_false] at hmem
      rcases List.mem_cons.mp hmem with heq | htail
      · exact Or.inl ⟨l, by rw [heq]; exact List.mem_cons_self _ _, hx⟩
      · rcases ih h2 l htail x hx with ⟨l0, hl0, hxl0⟩ | hr
        · exact Or.inl ⟨l0, List.mem_cons_of_mem _ hl0, hxl0⟩
        · exact Or.inr hr
    · have hpe : p.1 = h := by simpa using hph
      simp only [hashInsert, hph, if_true] at hmem
      rcases List.mem_cons.mp hmem with heq | htail
      · injection heq with ha hb
        subst hb
        rcases List.mem_append.mp hx with hx1 | hx2
        · refine Or.inl ⟨p.2, ?_, hx1⟩
          rw [ha]
          rw [show (p.1, p.2) = p from rfl]
          exact List.mem_cons_self _ _
        · simp only [List.mem_singleton] at hx2
          exact Or.inr ⟨by rw [ha, hpe], hx2⟩
      · exact Or.inl ⟨l, List.mem_cons_of_mem _ htail, hx⟩

lemma foldl_hash_mem (cfg : Config) :
    ∀ (rs : List FileResult) (st : LoopState) (h : String) (l : List (List String))
      (x : List String),
      (h, l) ∈ (rs.foldl (fun s r => (foldResult cfg s r).1) st).file_hashes → x ∈ l →
      (∃ l0, (h, l0) ∈ st.file_hashes ∧ x ∈ l0) ∨
        ∃ r ∈ rs, r.skipped = false ∧ r.hash = some h ∧ pyTruthyStr r.hash = true
          ∧ r.relative_path = x := by
  intro rs
  induction rs with
  | nil => intro st h l x hmem hx; exact Or.inl ⟨l, hmem, hx⟩
  | cons r rest ih =>
    intro st h l x hmem hx
    simp only [List.foldl_cons] at hmem
    rcases ih _ h l x hmem hx with ⟨l0, hl0, hxl0⟩ | ⟨r2, hr2, hrest⟩
    · have hfh := foldResult_file_hashes cfg st r
      cases hc : !r.skipped && !(stopsRun cfg r) && pyTruthyStr r.hash
      · rw [hc] at hfh
        simp only [Bool.false_eq_true, if_false] at hfh
        rw [hfh] at hl0
        exact Or.inl ⟨l0, hl0, hxl0⟩
      · rw [hc] at hfh
        simp only [if_true] at hfh
        have hc2 := hc
        simp only [Bool.and_eq_true, Bool.not_eq_true'] at hc2
        cases hro : r.hash with
        | none => rw [hro] at hc2; simp [pyTruthyStr] at hc2
        | some hh =>
          rw [hro] at hfh
          rw [hfh] at hl0
          rcases hashInsert_mem_sound hh r.relative_path st.file_hashes h l0 hl0 x hxl0 with
            ⟨l1, hl1, hxl1⟩ | ⟨hhe, hxe⟩
          · exact Or.inl ⟨l1, hl1, hxl1⟩
          · refine Or.inr ⟨r, List.mem_cons_self _ _, hc2.1.1, ?_, ?_, hxe.symm⟩
            · rw [hro, hhe]
            · exact hc2.2
    · exact Or.inr ⟨r2, List.mem_cons_of_mem _ hr2, hrest⟩

/-- Claim C4: a file whose size is below the minimum yields the skipped
record — no hash, no error, duration 0 — independently of its hashing
and probing environment (the statement constrains only `statProc`, so
hashing and extraction are never consulted); folding that record into
the loop state only bumps the completed and skipped counters, leaving
every total and container untouched; and over a whole run the file's
relative path never enters `failed_files` nor any duplicate group. -/
theorem claim_C4 (cfg : Config) (a : Avail) (base : List String) (cancel : Nat → Bool)
    (verbose debug : Bool) (p : List String) (env : MediaEnv) (s : Nat)
    (hstat : env.statProc = .ok s) (hsz : s < cfg.min_size_bytes)
    (hpre : base.isPrefixOf p = true) :
    process_single_file a env p base verbose debug cfg.min_size_bytes =
      .ok ⟨p, p.drop base.length, 0, s, none, none, true, some "File too small"⟩
    ∧ (∀ st : LoopState,
        foldResult cfg st ⟨p, p.drop base.length, 0, s, none, none, true, some "File too small"⟩
          = ({ st with completed_files := st.completed_files + 1,
                       skipped_files := st.skipped_files + 1 }, true))
    ∧ (∀ files : List (List String × MediaEnv),
        (p, env) ∈ files → (files.map Prod.fst).Nodup →
        (∀ q ∈ files.map Prod.fst, base.isPrefixOf q = true) →
        p.drop base.length ∉
            (runLoop cfg a base cancel verbose debug initState 0 files).failed_files
        ∧ ∀ g ∈ duplicateGroups (runLoop cfg a base cancel verbose debug initState 0 files),
            p.drop base.length ∉ g) := by
  have hskip := processOne_skipped_eq a env p base verbose debug cfg.min_size_bytes s hstat hsz hpre
  refine ⟨hskip, ?_, ?_⟩
  · intro st
    exact foldResult_skipped cfg st _ rfl
  · intro files hmem hnd hpref
    have hrunsame := runLoop_eq_foldl cfg a base cancel verbose debug files initState 0
    have hcontr : ∀ r : FileResult,
        (∃ pe ∈ files,
          process_single_file a pe.2 pe.1 base verbose debug cfg.min_size_bytes = .ok r) →
        r.skipped = false → r.relative_path = p.drop base.length → False := by
      intro r ⟨qe, hqe, hok⟩ hsk hrel
      obtain ⟨hqpre, hfp, hqrel⟩ :=
        processOne_ok_paths a qe.2 qe.1 base verbose debug cfg.min_size_bytes r hok
      have hq : qe.1 = p := by
        calc qe.1 = base ++ qe.1.drop base.length := eq_append_of_isPrefixOf base qe.1 hqpre
          _ = base ++ r.relative_path := by rw [hqrel]
          _ = base ++ p.drop base.length := by rw [hrel]
          _ = p := (eq_append_of_isPrefixOf base p hpre).symm
      have hqe2 : (p, qe.2) ∈ files := by
        rw [← hq]
        exact hqe
      have henv : qe.2 = env := assoc_nodup files p qe.2 env hnd hqe2 hmem
      rw [hq, henv, hskip] at hok
      have hreq : ({ file_path := p, relative_path := p.drop base.length, duration := 0,
                     size := s, hash := none, error := none, skipped := true,
                     skip_reason := some "File too small" } : FileResult) = r := by
        simpa using hok
      rw [← hreq] at hsk
      simp at hsk
    constructor
    · intro hbad
      rw [hrunsame] at hbad
      rcases foldl_failed_mem cfg _ initState _ hbad with h0 | ⟨r, hr, hsk, herr, hrel⟩
      · simp [initState] at h0
      · exact hcontr r
          (delivered_sound cfg a base cancel verbose debug files 0 r hr) hsk hrel
    · intro g hg hbad
      unfold duplicateGroups at hg
      obtain ⟨hg1, -⟩ := List.mem_filter.mp hg
      obtain ⟨pr, hpr, hpr2⟩ := List.mem_map.mp hg1
      rw [hrunsame] at hpr
      have hmem2 : (pr.1, pr.2) ∈
          ((deliveredList cfg a base cancel verbose debug 0 files).foldl
            (fun s r => (foldResult cfg s r).1) initState).file_hashes := hpr
      have hx : p.drop base.length ∈ pr.2 := by
        rw [hpr2]
        exact hbad
      rcases foldl_hash_mem cfg _ initState pr.1 pr.2 (p.drop base.length) hmem2 hx with
        ⟨l0, hl0, -⟩ | ⟨r, hr, hsk, -, -, hrel⟩
      · simp [initState] at hl0
      · exact hcontr r
          (delivered_sound cfg a base cancel verbose debug files 0 r hr) hsk hrel

/-- Witness for C4: a concrete run over two files, the first 10 bytes
below a 1000-byte minimum — its relative path is in no failure list and
no duplicate group, and its fold only bumps the counters. -/
theorem claim_C4_witness :
    process_single_file availAll envOkSample ["r", "tiny.mp4"] ["r"] false false 1000 =
      .ok ⟨["r", "tiny.mp4"], ["tiny.mp4"], 0, 10, none, none, true, some "File too small"⟩
    ∧ (["tiny.mp4"] : List String) ∉
        (runLoop ⟨100, false, 1000⟩ availAll ["r"] (fun _ => false) false false initState 0
          [(["r", "tiny.mp4"], envOkSample), (["r", "a.mp4"], envOkSample)]).failed_files := by
  have h := claim_C4 ⟨100, false, 1000⟩ availAll ["r"] (fun _ => false) false false
    ["r", "tiny.mp4"] envOkSample 10 rfl (by decide) (by decide)
  refine ⟨h.1, ?_⟩
  have h3 := h.2.2 [(["r", "tiny.mp4"], envOkSample), (["r", "a.mp4"], envOkSample)]
    (by decide) (by decide) (by decide)
  exact h3.1

/-- All relative paths stored across the buckets of a hash map. -/
def joinPaths (m : List (String × List (List String))) : List (List String) :=
  (m.map Prod.snd).flatten

lemma hashInsert_count (h : String) (rel : List String) :
    ∀ (m : List (String × List (List String))) (x : List String),
      List.count x (joinPaths (hashInsert m h rel)) =
        List.count x (joinPaths m) + (if rel = x then 1 else 0) := by
  intro m
  induction m with
  | nil =>
    intro x
    by_cases hx : rel = x <;>
      simp [joinPaths, hashInsert, List.count_cons, hx]
  | cons p m2 ih =>
    intro x
    cases hph : p.1 == h
    · simp only [hashInsert, hph, Bool.false_eq_true, if_false]
      simp only [joinPaths, List.map_cons, List.flatten_cons, List.count_append]
      have := ih x
      simp only [joinPaths] at this
      omega
    · simp only [hashInsert, hph, if_true]
      simp only [joinPaths, List.map_cons, List.flatten_cons, List.count_append]
      by_cases hx : rel = x <;>
        simp [List.count_cons, hx] <;> omega

lemma foldl_hash_count (cfg : Config) :
    ∀ (rs : List FileResult) (st : LoopState) (x : List String),
      List.count x (joinPaths ((rs.foldl (fun s r => (foldResult cfg s r).1) st).file_hashes)) ≤
        List.count x (joinPaths st.file_hashes) +
          rs.countP (fun r => r.relative_path == x) := by
  intro rs
  induction rs with
  | nil => intro st x; simp
  | cons r rest ih =>
    intro st x
    simp only [List.foldl_cons]
    have hstep := ih ((foldResult cfg st r).1) x
    have hfh := foldResult_file_hashes cfg st r
    have hcp : (r :: rest).countP (fun r => r.relative_path == x) =
        rest.countP (fun r => r.relative_path == x) +
          (if r.relative_path = x then 1 else 0) := by
      by_cases hx : r.relative_path = x <;>
        simp [List.countP_cons, hx]
    rw [hcp]
    cases hc : !r.skipped && !(stopsRun cfg r) && pyTruthyStr r.hash
    · rw [hc] at hfh
      simp only [Bool.false_eq_true, if_false] at hfh
      rw [hfh] at hstep
      omega
    · rw [hc] at hfh
      simp only [if_true] at hfh
      cases hro : r.hash with
      | none =>
        simp only [hro] at hfh
        rw [hfh] at hstep
        omega
      | some hh =>
        simp only [hro] at hfh
        rw [hfh] at hstep
        have hcount := hashInsert_count hh r.relative_path st.file_hashes x
        omega

lemma delivered_countP (cfg : Config) (a : Avail) (base : List String)
    (cancel : Nat → Bool) (verbose debug : Bool) :
    ∀ (files : List (List String × MediaEnv)) (idx : Nat) (x : List String),
      (∀ pe ∈ files, base.isPrefixOf pe.1 = true) →
      (deliveredList cfg a base cancel verbose debug idx files).countP
          (fun r => r.relative_path == x) ≤
        files.countP (fun pe => pe.1 == base ++ x) := by
  intro files
  induction files with
  | nil => intro idx x hpref; simp [deliveredList]
  | cons pe rest ih =>
    intro idx x hpref
    obtain ⟨p, env⟩ := pe
    have hrest : ∀ qe ∈ rest, base.isPrefixOf qe.1 = true :=
      fun qe h2 => hpref qe (List.mem_cons_of_mem _ h2)
    have hhead := hpref (p, env) (List.mem_cons_self _ _)
    have hkey : ∀ r : FileResult,
        process_single_file a env p base verbose debug cfg.min_size_bytes = .ok r →
        (if r.relative_path == x then 1 else 0) ≤ (if p == base ++ x then 1 else 0) := by
      intro r hok
      obtain ⟨-, -, hrel⟩ :=
        processOne_ok_paths a env p base verbose debug cfg.min_size_bytes r hok
      by_cases hx : r.relative_path = x
      · have hp : p = base ++ x := by
          calc p = base ++ p.drop base.length := eq_append_of_isPrefixOf base p hhead
            _ = base ++ r.relative_path := by rw [hrel]
            _ = base ++ x := by rw [hx]
        simp [hx, hp]
      · simp [hx]
    unfold deliveredList
    cases hc : cancel idx
    · simp only [Bool.false_eq_true, if_false]
      cases hp : process_single_file a env p base verbose debug cfg.min_size_bytes with
      | error e =>
        calc (deliveredList cfg a base cancel verbose debug (idx + 1) rest).countP
              (fun r => r.relative_path == x) ≤
            rest.countP (fun pe => pe.1 == base ++ x) := ih (idx + 1) x hrest
          _ ≤ ((p, env) :: rest).countP (fun pe => pe.1 == base ++ x) := by
              simp only [List.countP_cons]
              omega
      | ok r =>
        have hk := hkey r hp
        cases hstop : stopsRun cfg r
        · simp only [hstop, Bool.false_eq_true, if_false]
          have hr := ih (idx + 1) x hrest
          simp only [List.countP_cons]
          omega
        · simp only [hstop, if_true]
          simp only [List.countP_cons, List.countP_nil]
          omega
    · simp

lemma countP_fst_eq (q : List String) :
    ∀ files : List (List String × MediaEnv),
      files.countP (fun pe => pe.1 == q) = List.count q (files.map Prod.fst) := by
  intro files
  induction files with
  | nil => simp
  | cons pe rest ih =>
    simp only [List.countP_cons, List.map_cons, List.count_cons]
    by_cases hx : pe.1 = q <;> simp [hx, ih]

lemma count_le_one_of_nodup (q : List String) :
    ∀ l : List (List String), l.Nodup → List.count q l ≤ 1 := by
  intro l
  induction l with
  | nil => intro hnd; simp
  | cons b l2 ih =>
    intro hnd
    rw [List.nodup_cons] at hnd
    by_cases hx : b = q
    · have hq0 : List.count q l2 = 0 := by
        rw [List.count_eq_zero]
        rw [← hx]
        exact hnd.1
      simp [List.count_cons, hx, hq0]
    · have := ih hnd.2
      simp [List.count_cons, hx]
      omega

lemma countP_contains_le_count_join (x : List String) :
    ∀ gs : List (List (List String)),
      gs.countP (fun g => g.contains x) ≤ List.count x gs.flatten := by
  intro gs
  induction gs with
  | nil => simp
  | cons g gs2 ih =>
    simp only [List.countP_cons, List.flatten_cons, List.count_append]
    cases hc : g.contains x
    · simp only [Bool.false_eq_true, if_false]
      omega
    · have hmem : x ∈ g := by
        rw [← List.elem_iff]
        exact hc
      have hpos : 0 < List.count x g := List.count_pos_iff_mem.mpr hmem
      simp only [if_true]
      omega

/-- Claim C6: duplicate groups are exactly the hash-map entries with at
least two paths (singletons discarded); every group has size at least
two; `total_duplicates` is the sum over groups of size minus one; every
path in a bucket comes from a delivered non-skipped result carrying
that hash; and with distinct file paths each file appears in at most
one duplicate group. -/
theorem claim_C6 (cfg : Config) (a : Avail) (base : List String) (cancel : Nat → Bool)
    (verbose debug : Bool) (files : List (List String × MediaEnv)) :
    (∀ g, g ∈ duplicateGroups (runLoop cfg a base cancel verbose debug initState 0 files) ↔
      ((∃ h, (h, g) ∈
          (runLoop cfg a base cancel verbose debug initState 0 files).file_hashes)
        ∧ 2 ≤ g.length))
    ∧ (∀ g ∈ duplicateGroups (runLoop cfg a base cancel verbose debug initState 0 files),
        2 ≤ g.length)
    ∧ total_duplicates (runLoop cfg a base cancel verbose debug initState 0 files) =
        ((duplicateGroups (runLoop cfg a base cancel verbose debug initState 0 files)).map
          (fun g => g.length - 1)).sum
    ∧ (∀ h l, (h, l) ∈
          (runLoop cfg a base cancel verbose debug initState 0 files).file_hashes →
        ∀ x ∈ l, ∃ r ∈ deliveredList cfg a base cancel verbose debug 0 files,
          r.skipped = false ∧ r.hash = some h ∧ r.relative_path = x)
    ∧ ((files.map Prod.fst).Nodup →
        (∀ pe ∈ files, base.isPrefixOf pe.1 = true) →
        ∀ x : List String,
          (duplicateGroups (runLoop cfg a base cancel verbose debug initState 0 files)).countP
            (fun g => g.contains x) ≤ 1) := by
  have hrunsame := runLoop_eq_foldl cfg a base cancel verbose debug files initState 0
  refine ⟨?_, ?_, ?_, ?_, ?_⟩
  · intro g
    unfold duplicateGroups
    rw [List.mem_filter]
    constructor
    · rintro ⟨h1, h2⟩
      obtain ⟨pr, hpr, hpr2⟩ := List.mem_map.mp h1
      refine ⟨⟨pr.1, ?_⟩, by simpa using h2⟩
      rw [show (pr.1, g) = pr from by rw [← hpr2]]
      exact hpr
    · rintro ⟨⟨h, hmem⟩, hlen⟩
      exact ⟨List.mem_map.mpr ⟨(h, g), hmem, rfl⟩, by simpa using hlen⟩
  · intro g hg
    unfold duplicateGroups at hg
    obtain ⟨-, hlen⟩ := List.mem_filter.mp hg
    simpa using hlen
  · rfl
  · intro h l hmem x hx
    rw [hrunsame] at hmem
    rcases foldl_hash_mem cfg _ initState h l x hmem hx with ⟨l0, hl0, -⟩ |
      ⟨r, hr, hsk, hhash, -, hrel⟩
    · simp [initState] at hl0
    · exact ⟨r, hr, hsk, hhash, hrel⟩
  · intro hnd hpref x
    have h1 : (duplicateGroups
          (runLoop cfg a base cancel verbose debug initState 0 files)).countP
        (fun g => g.contains x) ≤
        ((runLoop cfg a base cancel verbose debug initState 0 files).file_hashes.map
          Prod.snd).countP (fun g => g.contains x) := by
      unfold duplicateGroups
      exact List.Sublist.countP_le _ (List.filter_sublist _)
    have h2 := countP_contains_le_count_join x
      ((runLoop cfg a base cancel verbose debug initState 0 files).file_hashes.map Prod.snd)
    have h3 : List.count x
        (joinPaths (runLoop cfg a base cancel verbose debug initState 0 files).file_hashes) ≤
        List.count x (joinPaths initState.file_hashes) +
          (deliveredList cfg a base cancel verbose debug 0 files).countP
            (fun r => r.relative_path == x) := by
      rw [hrunsame]
      exact foldl_hash_count cfg _ initState x
    have h4 := delivered_countP cfg a base cancel verbose debug files 0 x hpref
    have h5 := countP_fst_eq (base ++ x) files
    have h6 : List.count (base ++ x) (files.map Prod.fst) ≤ 1 :=
      count_le_one_of_nodup (base ++ x) (files.map Prod.fst) hnd
    have h0 : List.count x (joinPaths initState.file_hashes) = 0 := by
      simp [initState, joinPaths]
    unfold joinPaths at h2 h3 h0
    omega

/-- Witness for C6: a concrete run over two byte-identical files (same
hash) produces exactly one duplicate group of size 2, and each path
appears in at most one group. -/
theorem claim_C6_witness :
    (∀ g ∈ duplicateGroups (runLoop cfgSample availAll ["r"] (fun _ => false) false false
        initState 0 [(["r", "a.mp4"], envOkSample), (["r", "b.mp4"], envOkSample)]),
      2 ≤ g.length)
    ∧ (duplicateGroups (runLoop cfgSample availAll ["r"] (fun _ => false) false false
        initState 0 [(["r", "a.mp4"], envOkSample), (["r", "b.mp4"], envOkSample)])).countP
        (fun g => g.contains (["a.mp4"] : List String)) ≤ 1 := by
  have h := claim_C6 cfgSample availAll ["r"] (fun _ => false) false false
    [(["r", "a.mp4"], envOkSample), (["r", "b.mp4"], envOkSample)]
  exact ⟨h.2.1, h.2.2.2.2 (by decide) (by decide) ["a.mp4"]⟩

/-- A per-file outcome that cannot trigger the stop-on-error break:
either the worker raised (caught and only logged) or the result has no
error. -/
def errFreeB : Except String FileResult → Bool
  | .ok r => r.error.isNone
  | .error _ => true

lemma stopsRun_of_errFree (cfg : Config) (r : FileResult)
    (h : r.error.isNone = true) : stopsRun cfg r = false := by
  unfold stopsRun
  cases he : r.error with
  | some e => rw [he] at h; simp at h
  | none => simp [pyTruthyStr]

lemma runLoop_cons (cfg : Config) (a : Avail) (base : List String) (cancel : Nat → Bool)
    (verbose debug : Bool) (st : LoopState) (idx : Nat) (p : List String) (env : MediaEnv)
    (rest : List (List String × MediaEnv)) :
    runLoop cfg a base cancel verbose debug st idx ((p, env) :: rest) =
      if cancel idx then st
      else
        match process_single_file a env p base verbose debug cfg.min_size_bytes with
        | .error _ => runLoop cfg a base cancel verbose debug st (idx + 1) rest
        | .ok r =>
          match foldResult cfg st r with
          | (st1, true) => runLoop cfg a base cancel verbose debug st1 (idx + 1) rest
          | (st1, false) => st1 := rfl

lemma runLoop_append_errFree (cfg : Config) (a : Avail) (base : List String)
    (verbose debug : Bool) :
    ∀ (pre : List (List String × MediaEnv)) (st : LoopState) (idx : Nat)
      (rest : List (List String × MediaEnv)),
      (∀ qe ∈ pre,
        errFreeB (process_single_file a qe.2 qe.1 base verbose debug cfg.min_size_bytes) = true) →
      runLoop cfg a base (fun _ => false) verbose debug st idx (pre ++ rest) =
        runLoop cfg a base (fun _ => false) verbose debug
          (runLoop cfg a base (fun _ => false) verbose debug st idx pre)
          (idx + pre.length) rest := by
  intro pre
  induction pre with
  | nil => intro st idx rest hfree; simp [runLoop]
  | cons qe pre2 ih =>
    intro st idx rest hfree
    obtain ⟨q, env⟩ := qe
    have hq := hfree (q, env) (List.mem_cons_self _ _)
    have hrest : ∀ qe ∈ pre2,
        errFreeB (process_single_file a qe.2 qe.1 base verbose debug cfg.min_size_bytes) = true :=
      fun qe h2 => hfree qe (List.mem_cons_of_mem _ h2)
    have hlen : idx + ((q, env) :: pre2).length = (idx + 1) + pre2.length := by
      simp only [List.length_cons]
      omega
    rw [List.cons_append, runLoop_cons, runLoop_cons, hlen]
    cases hp : process_single_file a env q base verbose debug cfg.min_size_bytes with
    | error e =>
      simp only [hp, Bool.false_eq_true, if_false]
      exact ih st (idx + 1) rest hrest
    | ok r =>
      rw [hp] at hq
      have hstop2 : stopsRun cfg r = false := stopsRun_of_errFree cfg r hq
      have hsnd := foldResult_snd cfg st r
      cases hfr : foldResult cfg st r with
      | mk st1 b =>
        rw [hfr, hstop2] at hsnd
        simp only [Bool.not_false] at hsnd
        subst hsnd
        simp only [hp, hfr, Bool.false_eq_true, if_false]
        exact ih st1 (idx + 1) rest hrest

lemma runLoop_errFree_failed (cfg : Config) (a : Avail) (base : List String)
    (verbose debug : Bool) :
    ∀ (pre : List (List String × MediaEnv)) (st : LoopState) (idx : Nat),
      (∀ qe ∈ pre,
        errFreeB (process_single_file a qe.2 qe.1 base verbose debug cfg.min_size_bytes) = true) →
      (runLoop cfg a base (fun _ => false) verbose debug st idx pre).failed_files =
        st.failed_files := by
  intro pre
  induction pre with
  | nil => intro st idx hfree; rfl
  | cons qe pre2 ih =>
    intro st idx hfree
    obtain ⟨q, env⟩ := qe
    have hq := hfree (q, env) (List.mem_cons_self _ _)
    have hrest : ∀ qe ∈ pre2,
        errFreeB (process_single_file a qe.2 qe.1 base verbose debug cfg.min_size_bytes) = true :=
      fun qe h2 => hfree qe (List.mem_cons_of_mem _ h2)
    rw [runLoop_cons]
    cases hp : process_single_file a env q base verbose debug cfg.min_size_bytes with
    | error e =>
      simp only [hp, Bool.false_eq_true, if_false]
      exact ih st (idx + 1) hrest
    | ok r =>
      rw [hp] at hq
      have hstop2 : stopsRun cfg r = false := stopsRun_of_errFree cfg r hq
      have hsnd := foldResult_snd cfg st r
      cases hfr : foldResult cfg st r with
      | mk st1 b =>
        rw [hfr, hstop2] at hsnd
        simp only [Bool.not_false] at hsnd
        subst hsnd
        simp only [hp, hfr, Bool.false_eq_true, if_false]
        rw [ih st1 (idx + 1) hrest]
        have hff := foldResult_failed cfg st r
        rw [hfr] at hff
        simp only at hff
        rw [hff]
        have hq2 : r.error.isNone = true := hq
        have hne : pyTruthyStr r.error = false := by
          cases he : r.error with
          | some e2 => rw [he] at hq2; simp at hq2
          | none => simp [pyTruthyStr]
        rw [hne]
        simp

lemma runLoop_head_stop (cfg : Config) (a : Avail) (base : List String)
    (verbose debug : Bool) (p : List String) (env : MediaEnv) (r : FileResult)
    (post : List (List String × MediaEnv)) (st : LoopState) (idx : Nat)
    (hok : process_single_file a env p base verbose debug cfg.min_size_bytes = .ok r)
    (hstopr : stopsRun cfg r = true) :
    runLoop cfg a base (fun _ => false) verbose debug st idx ((p, env) :: post) =
      (foldResult cfg st r).1 := by
  rw [runLoop_cons]
  have hsnd := foldResult_snd cfg st r
  cases hfr : foldResult cfg st r with
  | mk st1 b =>
    rw [hfr, hstopr] at hsnd
    simp only [Bool.not_true] at hsnd
    subst hsnd
    simp only [hok, hfr, Bool.false_eq_true, if_false]

/-- Claim C7: stop-on-error semantics.  Sequentially (worker count 1):
when the first delivered error occurs, the run halts — the whole run
equals the run truncated right after the failing file (nothing after it
is processed), and `failed_files` is exactly that file's relative path.
For the pool (worker count `n`): the finish transition that folds the
first error empties the pending queue (cancelled futures), marks the
loop stopped, records the failing path, and leaves at most `n - 1`
futures in flight; once stopped, the only possible transition is a
discarded completion — it never changes the folded state, never
dispatches, and strictly shrinks the in-flight set, so at most `n - 1`
further files complete; and every reachable scheduler state runs at
most `n` futures. -/
theorem claim_C7 (cfg : Config) (a : Avail) (base : List String) (verbose debug : Bool) :
    (∀ (pre post : List (List String × MediaEnv)) (p : List String) (env : MediaEnv)
        (r : FileResult) (e : String),
      cfg.stop_on_error = true →
      (∀ qe ∈ pre,
        errFreeB (process_single_file a qe.2 qe.1 base verbose debug cfg.min_size_bytes) = true) →
      process_single_file a env p base verbose debug cfg.min_size_bytes = .ok r →
      r.skipped = false → r.error = some e →
      runLoop cfg a base (fun _ => false) verbose debug initState 0 (pre ++ (p, env) :: post) =
        runLoop cfg a base (fun _ => false) verbose debug initState 0 (pre ++ [(p, env)])
      ∧ (runLoop cfg a base (fun _ => false) verbose debug initState 0
          (pre ++ (p, env) :: post)).failed_files = [r.relative_path])
    ∧ (∀ (n : Nat) (s : PoolState) (job : List String × MediaEnv) (r : FileResult),
      job ∈ s.running → s.stopped = false →
      process_single_file a job.2 job.1 base verbose debug cfg.min_size_bytes = .ok r →
      stopsRun cfg r = true →
      PoolStep cfg a base verbose debug n s
          ⟨[], s.running.erase job, (foldResult cfg s.st r).1, true⟩
      ∧ r.relative_path ∈ ((foldResult cfg s.st r).1).failed_files
      ∧ (s.running.length ≤ n → (s.running.erase job).length + 1 ≤ n))
    ∧ (∀ (n : Nat) (s s2 : PoolState),
      s.stopped = true → PoolStep cfg a base verbose debug n s s2 →
      s2.st = s.st ∧ s2.stopped = true ∧ s2.running.length + 1 = s.running.length
        ∧ s2.pending = s.pending)
    ∧ (∀ (n : Nat) (files : List (List String × MediaEnv)) (s : PoolState),
      PoolReachable cfg a base verbose debug n (poolInit files) s →
      s.running.length ≤ n) := by
  refine ⟨?_, ?_, ?_, ?_⟩
  · intro pre post p env r e hsoe hfree hok hsk herr
    have htruthy : pyTruthyStr r.error = true := by
      rcases processOne_err_shape a env p base verbose debug cfg.min_size_bytes r hok with
        hnone | ⟨e2, hsome, hne, -⟩
      · rw [herr] at hnone; exact absurd hnone (by simp)
      · rw [hsome]
        simpa [pyTruthyStr] using hne
    have hstopr : stopsRun cfg r = true := by
      unfold stopsRun
      rw [hsk, htruthy, hsoe]
      rfl
    have h1 := runLoop_append_errFree cfg a base verbose debug pre initState 0
      ((p, env) :: post) hfree
    have h2 := runLoop_append_errFree cfg a base verbose debug pre initState 0
      [(p, env)] hfree
    have h3 := runLoop_head_stop cfg a base verbose debug p env r post
      (runLoop cfg a base (fun _ => false) verbose debug initState 0 pre)
      (0 + pre.length) hok hstopr
    have h4 := runLoop_head_stop cfg a base verbose debug p env r []
      (runLoop cfg a base (fun _ => false) verbose debug initState 0 pre)
      (0 + pre.length) hok hstopr
    constructor
    · rw [h1, h2, h3, h4]
    · rw [h1, h3]
      have hff := foldResult_failed cfg
        (runLoop cfg a base (fun _ => false) verbose debug initState 0 pre) r
      rw [hff, hsk, htruthy]
      rw [runLoop_errFree_failed cfg a base verbose debug pre initState 0 hfree]
      simp [initState]
  · intro n s job r hjob hstop hok hstopr
    have hsnd : (foldResult cfg s.st r).2 = false := by
      rw [foldResult_snd, hstopr]
      rfl
    refine ⟨?_, ?_, ?_⟩
    · have h := @PoolStep.finish cfg a base verbose debug n s job r hjob hstop hok
      rw [hsnd] at h
      simpa using h
    · have hff := foldResult_failed cfg s.st r
      have hc : (!r.skipped && pyTruthyStr r.error) = true := by
        unfold stopsRun at hstopr
        cases hsk : r.skipped <;> cases he : pyTruthyStr r.error <;>
          rw [hsk, he] at hstopr <;> simp_all
      rw [hff, hc]
      simp
    · intro hle
      have herase := List.length_erase_of_mem hjob
      have hpos : 0 < s.running.length := List.length_pos.mpr (List.ne_nil_of_mem hjob)
      omega
  · intro n s s2 hstop hstep
    cases hstep with
    | start job h1 h2 h3 => rw [hstop] at h1; exact absurd h1 (by simp)
    | finish job r h1 h2 h3 => rw [hstop] at h2; exact absurd h2 (by simp)
    | finishRaised job e h1 h2 h3 => rw [hstop] at h2; exact absurd h2 (by simp)
    | cancelBreak h1 => rw [hstop] at h1; exact absurd h1 (by simp)
    | finishDiscard job h1 h2 =>
      refine ⟨rfl, rfl, ?_, rfl⟩
      show (s.running.erase job).length + 1 = s.running.length
      have := List.length_erase_of_mem h1
      have hpos : 0 < s.running.length := List.length_pos.mpr (List.ne_nil_of_mem h1)
      omega
  · intro n files s hreach
    induction hreach with
    | refl => simp [poolInit]
    | tail hsteps hstep ih =>
      cases hstep with
      | start job h1 h2 h3 =>
        simp only [List.length_append, List.length_singleton]
        omega
      | finish job r h1 h2 h3 =>
        simp only
        have := List.length_erase_of_mem h1
        omega
      | finishRaised job e h1 h2 h3 =>
        simp only
        have := List.length_erase_of_mem h1
        omega
      | cancelBreak h1 => simpa using ih
      | finishDiscard job h1 h2 =>
        simp only
        have := List.length_erase_of_mem h1
        omega

/-- Witness for C7 (sequential conjunct): a concrete 3-file run with
stop-on-error on whose second file fails — the run equals the run over
just the first two files (the third is never processed) and
`failed_files` is exactly the failing file's relative path. -/
theorem claim_C7_witness :
    runLoop ⟨100, true, 0⟩ availAll ["r"] (fun _ => false) false false initState 0
        [(["r", "a.mp4"], envOkSample), (["r", "b.mp4"], envAllFailSample),
         (["r", "c.mp4"], envOkSample)] =
      runLoop ⟨100, true, 0⟩ availAll ["r"] (fun _ => false) false false initState 0
        [(["r", "a.mp4"], envOkSample), (["r", "b.mp4"], envAllFailSample)]
    ∧ (runLoop ⟨100, true, 0⟩ availAll ["r"] (fun _ => false) false false initState 0
        [(["r", "a.mp4"], envOkSample), (["r", "b.mp4"], envAllFailSample),
         (["r", "c.mp4"], envOkSample)]).failed_files = [["b.mp4"]] := by
  have h := (claim_C7 ⟨100, true, 0⟩ availAll ["r"] false false).1
    [(["r", "a.mp4"], envOkSample)] [(["r", "c.mp4"], envOkSample)]
    ["r", "b.mp4"] envAllFailSample resFailSample
    "Error processing b.mp4: pymediainfo failed (e1), moviepy failed (e2), ffprobe failed (e3)"
    rfl (by decide) (by decide) rfl rfl
  exact ⟨h.1, h.2⟩

end MediaChecker
